import Mathlib

/-!
Verification of the Chronos backtesting core (src/chronos of the repository):
the portfolio ledger (portfolio.py), trade decision parsing and execution
(trade.py), the rule-based persona decision functions (personas/quant.py,
personas/degen.py), and the day-loop simulation orchestrator (simulator.py).

Python floats are modelled as rationals; stateful methods become functions
returning the updated object; a method that can raise an uncaught exception
returns an Except value.  Python stdlib collaborators that are not part of
the repository (json.loads together with the regex pre-extraction, strftime)
are modelled as explicit parameters or small faithful models, noted at each
definition.
-/

namespace Chronos

/-! ### JSON values — the result of Python json.loads -/

/-- A Python value as produced by json.loads. -/
inductive JValue where
  | jnull
  | jbool (b : Bool)
  | jnum (q : ℚ)
  | jstr (s : String)
  | jarr (elems : List JValue)
  | jobj (fields : List (String × JValue))
deriving Repr

/-- Python exceptions that are NOT in the except-clause of
TradeExecutor.parse_decision and therefore escape to the caller. -/
inductive PyExc where
  | valueError
  | attributeError
deriving Repr, DecidableEq

/-- Model of dict.get(key, default) on the field list of a JSON object.
json.loads keeps the last occurrence of a duplicated key, hence the
reversed search. -/
def objGet (fields : List (String × JValue)) (key : String) (dflt : JValue) : JValue :=
  match fields.reverse.find? (fun kv => kv.1 == key) with
  | some kv => kv.2
  | none => dflt

/-- Character-wise lower-casing (Python str.lower on the ASCII range the
parser's keywords live in). -/
def strLower (s : String) : String :=
  String.mk (s.data.map Char.toLower)

/-- Character-wise upper-casing (Python str.upper on the ASCII range the
parser's action values live in). -/
def strUpper (s : String) : String :=
  String.mk (s.data.map Char.toUpper)

/-- Strip leading and trailing whitespace (Python float() strips before
parsing). -/
def trimChars (cs : List Char) : List Char :=
  ((cs.dropWhile Char.isWhitespace).reverse.dropWhile Char.isWhitespace).reverse

/-- Replace every occurrence of one character (Python str.replace with a
single-character pattern). -/
def replaceChar (a b : Char) (s : String) : String :=
  String.mk (s.data.map fun c => if c = a then b else c)

/-- Digit list to a natural number; none unless nonempty and all digits. -/
def parseDigits (cs : List Char) : Option ℕ :=
  if cs ≠ [] ∧ cs.all Char.isDigit then
    some (cs.foldl (fun a c => a * 10 + (c.toNat - 48)) 0)
  else none

/-- Model of Python float(s) on a string argument, restricted to plain
decimal literals (optional sign, digits, optional fractional part); other
shapes such as exponents are not produced by this repository's data.
none models the ValueError that float raises on a non-numeric string. -/
def strToRat (s : String) : Option ℚ :=
  let cs := trimChars s.toList
  let (sign, cs) : ℚ × List Char :=
    match cs with
    | '-' :: rest => (-1, rest)
    | '+' :: rest => (1, rest)
    | _ => (1, cs)
  match cs.splitOn '.' with
  | [ipart] =>
      match parseDigits ipart with
      | some n => some (sign * n)
      | none => none
  | [ipart, fpart] =>
      if ipart = [] ∧ fpart = [] then none
      else
        let iOk := ipart = [] ∨ (parseDigits ipart).isSome
        let fOk := fpart = [] ∨ (parseDigits fpart).isSome
        if iOk ∧ fOk then
          let iv : ℚ := ((parseDigits ipart).getD 0 : ℕ)
          let fv : ℚ := ((parseDigits fpart).getD 0 : ℕ) / (10 : ℚ) ^ fpart.length
          some (sign * (iv + fv))
        else none
  | _ => none

/-- Outcome of Python float(x) inside parse_decision: a value, a TypeError
(which the except-clause catches), or a ValueError from a non-numeric
string (which the except-clause does NOT catch). -/
inductive FloatRes where
  | ok (q : ℚ)
  | caughtTypeError
  | uncaughtValueError
deriving Repr, DecidableEq

/-- Model of Python float(x) on a json.loads value. -/
def pyFloat : JValue → FloatRes
  | .jnum q => .ok q
  | .jbool b => .ok (if b then 1 else 0)
  | .jstr s =>
      match strToRat s with
      | some q => .ok q
      | none => .uncaughtValueError
  | .jnull => .caughtTypeError
  | .jarr _ => .caughtTypeError
  | .jobj _ => .caughtTypeError

/-- Model of Python str(x) on a json.loads value.  Faithful on strings,
which is the only case this repository's data exercises; the repr of
non-string values is approximated. -/
def pyStr : JValue → String
  | .jstr s => s
  | .jnull => "None"
  | .jbool b => if b then "True" else "False"
  | .jnum q => toString q
  | .jarr _ => "[...]"
  | .jobj _ => "\x7b...\x7d"

/-! ### Trade decisions (trade.py) -/

/-- TradeAction enum. -/
inductive TradeAction where
  | BUY
  | SELL
  | HOLD
deriving Repr, DecidableEq

/-- TradeAction.value. -/
def TradeAction.value : TradeAction → String
  | .BUY => "BUY"
  | .SELL => "SELL"
  | .HOLD => "HOLD"

/-- Model of the enum constructor TradeAction(action_str): some action on
one of the three defined values, none models the ValueError (which
parse_decision catches locally and turns into HOLD). -/
def actionOfString (s : String) : Option TradeAction :=
  if s = "BUY" then some .BUY
  else if s = "SELL" then some .SELL
  else if s = "HOLD" then some .HOLD
  else none

/-- The TradeDecision dataclass. -/
structure TradeDecision where
  action : TradeAction
  amount_pct : ℚ
  reason : String
  confidence : ℚ := 0
  raw_response : String := ""
deriving Repr, DecidableEq

/-- Whether pat occurs as a contiguous sublist of s. -/
def hasInfix (s pat : List Char) : Bool :=
  match s with
  | [] => pat.isEmpty
  | _ :: t => pat.isPrefixOf s || hasInfix t pat

/-- Python substring test pat in s. -/
def strContainsSub (s pat : String) : Bool :=
  hasInfix s.toList pat.toList

/-- The fallback branch of parse_decision (its except-clause body): infer
intent from the lowered raw text. -/
def inferFallback (ai_response : String) : TradeDecision :=
  let response_lower := strLower ai_response
  let (action, amount_pct) : TradeAction × ℚ :=
    if strContainsSub response_lower "buy" || strContainsSub response_lower "買入" then
      (.BUY, 10)
    else if strContainsSub response_lower "sell" || strContainsSub response_lower "賣出" then
      (.SELL, 10)
    else
      (.HOLD, 0)
  { action := action
    amount_pct := amount_pct
    reason := "[解析失敗] " ++ ai_response.take 200
    confidence := 0
    raw_response := ai_response }

/-- TradeExecutor.parse_decision.  The regex extraction plus json.loads
stage is Python stdlib, modelled by the explicit argument loads: none when
json.loads raises JSONDecodeError (caught), some v when it yields v.
The body is the try-block of the source: the except-clause catches exactly
JSONDecodeError, KeyError and TypeError; a ValueError raised by float() on
a non-numeric string, or an AttributeError raised by .get / .upper() on a
non-dict / non-string, escapes as an Except.error. -/
def parse_decision (ai_response : String) (loads : Option JValue) :
    Except PyExc TradeDecision :=
  match loads with
  | none => .ok (inferFallback ai_response)
  | some data =>
    match data with
    | .jobj fields =>
      match objGet fields "action" (.jstr "HOLD") with
      | .jstr s =>
        let action_str := strUpper s
        let action := (actionOfString action_str).getD .HOLD
        match pyFloat (objGet fields "amount_pct" (.jnum 0)) with
        | .uncaughtValueError => .error .valueError
        | .caughtTypeError => .ok (inferFallback ai_response)
        | .ok apRaw =>
          let amount_pct := max 0 (min 100 apRaw)
          let reason := pyStr (objGet fields "reason" (.jstr "無說明"))
          match pyFloat (objGet fields "confidence" (.jnum 50)) with
          | .uncaughtValueError => .error .valueError
          | .caughtTypeError => .ok (inferFallback ai_response)
          | .ok cRaw =>
            .ok { action := action
                  amount_pct := amount_pct
                  reason := reason
                  confidence := max 0 (min 100 cRaw)
                  raw_response := ai_response }
      | _ => .error .attributeError
    | _ => .error .attributeError

/-! ### Portfolio ledger (portfolio.py) -/

/-- The Position dataclass. -/
structure Position where
  symbol : String
  quantity : ℚ
  avg_cost : ℚ
deriving Repr, DecidableEq

/-- Position.cost_basis. -/
def Position.cost_basis (p : Position) : ℚ :=
  p.quantity * p.avg_cost

/-- Position.update(quantity_delta, price): on a buy (positive delta) the
average cost is recomputed from the total cost; on a sell the average cost
is unchanged, and a resulting quantity ≤ 0 resets both fields to 0. -/
def Position.update (p : Position) (quantity_delta price : ℚ) : Position :=
  if quantity_delta > 0 then
    let total_cost := p.cost_basis + quantity_delta * price
    let q := p.quantity + quantity_delta
    if q > 0 then
      { p with quantity := q, avg_cost := total_cost / q }
    else
      { p with quantity := q }
  else
    let q := p.quantity + quantity_delta
    if q ≤ 0 then
      { p with quantity := 0, avg_cost := 0 }
    else
      { p with quantity := q }

/-- The PortfolioSnapshot dataclass. -/
structure PortfolioSnapshot where
  date : String
  usd_balance : ℚ
  btc_quantity : ℚ
  btc_price : ℚ
  total_value_usd : ℚ
  daily_return_pct : ℚ := 0
deriving Repr, DecidableEq

/-- The TradeRecord dataclass. -/
structure TradeRecord where
  date : String
  action : String
  symbol : String
  quantity : ℚ
  price : ℚ
  usd_amount : ℚ
  reason : String
  portfolio_value_after : ℚ
deriving Repr, DecidableEq

/-- The Portfolio class state. -/
structure Portfolio where
  investor_id : String
  initial_capital : ℚ
  usd_balance : ℚ
  btc_position : Position
  snapshots : List PortfolioSnapshot
  trades : List TradeRecord
deriving Repr, DecidableEq

/-- Portfolio.__init__. -/
def Portfolio.init (investor_id : String) (initial_capital : ℚ) : Portfolio :=
  { investor_id := investor_id
    initial_capital := initial_capital
    usd_balance := initial_capital
    btc_position := { symbol := "BTC", quantity := 0, avg_cost := 0 }
    snapshots := []
    trades := [] }

/-- Portfolio.get_total_value. -/
def Portfolio.get_total_value (p : Portfolio) (btc_price : ℚ) : ℚ :=
  p.usd_balance + p.btc_position.quantity * btc_price

/-- Portfolio.get_return_pct. -/
def Portfolio.get_return_pct (p : Portfolio) (btc_price : ℚ) : ℚ :=
  (p.get_total_value btc_price - p.initial_capital) / p.initial_capital * 100

/-- Portfolio.buy: an amount above the balance is clamped to the balance
(never rejected); a clamped amount ≤ 0 is a no-op returning False; else
balance and position are updated and one BUY TradeRecord is appended.
Returns the updated portfolio with the Python return value. -/
def Portfolio.buy (p : Portfolio) (date : String) (btc_price usd_amount : ℚ)
    (reason : String) : Portfolio × Bool :=
  let usd_amount := if usd_amount > p.usd_balance then p.usd_balance else usd_amount
  if usd_amount ≤ 0 then (p, false)
  else
    let btc_quantity := usd_amount / btc_price
    let p1 := { p with
      usd_balance := p.usd_balance - usd_amount
      btc_position := p.btc_position.update btc_quantity btc_price }
    let portfolio_value := p1.get_total_value btc_price
    let trade : TradeRecord :=
      { date := date, action := "BUY", symbol := "BTC"
        quantity := btc_quantity, price := btc_price, usd_amount := usd_amount
        reason := reason, portfolio_value_after := portfolio_value }
    ({ p1 with trades := p1.trades ++ [trade] }, true)

/-- Portfolio.sell: a quantity above the held quantity is clamped to the
held quantity; a clamped quantity ≤ 0 is a no-op returning False; else
balance and position are updated and one SELL TradeRecord is appended. -/
def Portfolio.sell (p : Portfolio) (date : String) (btc_price btc_quantity : ℚ)
    (reason : String) : Portfolio × Bool :=
  let btc_quantity :=
    if btc_quantity > p.btc_position.quantity then p.btc_position.quantity
    else btc_quantity
  if btc_quantity ≤ 0 then (p, false)
  else
    let usd_amount := btc_quantity * btc_price
    let p1 := { p with
      usd_balance := p.usd_balance + usd_amount
      btc_position := p.btc_position.update (-btc_quantity) btc_price }
    let portfolio_value := p1.get_total_value btc_price
    let trade : TradeRecord :=
      { date := date, action := "SELL", symbol := "BTC"
        quantity := btc_quantity, price := btc_price, usd_amount := usd_amount
        reason := reason, portfolio_value_after := portfolio_value }
    ({ p1 with trades := p1.trades ++ [trade] }, true)

/-- Portfolio.hold: records a zero-quantity HOLD TradeRecord, no other
state change. -/
def Portfolio.hold (p : Portfolio) (date : String) (btc_price : ℚ)
    (reason : String) : Portfolio :=
  let portfolio_value := p.get_total_value btc_price
  let trade : TradeRecord :=
    { date := date, action := "HOLD", symbol := "BTC"
      quantity := 0, price := btc_price, usd_amount := 0
      reason := reason, portfolio_value_after := portfolio_value }
  { p with trades := p.trades ++ [trade] }

/-- Portfolio.take_snapshot: appends one snapshot; the daily return is
relative to the previous snapshot when one exists with positive value. -/
def Portfolio.take_snapshot (p : Portfolio) (date : String) (btc_price : ℚ) :
    Portfolio :=
  let total_value := p.get_total_value btc_price
  let daily_return : ℚ :=
    match p.snapshots.getLast? with
    | some prev =>
        if prev.total_value_usd > 0 then
          (total_value - prev.total_value_usd) / prev.total_value_usd * 100
        else 0
    | none => 0
  let snapshot : PortfolioSnapshot :=
    { date := date, usd_balance := p.usd_balance
      btc_quantity := p.btc_position.quantity, btc_price := btc_price
      total_value_usd := total_value, daily_return_pct := daily_return }
  { p with snapshots := p.snapshots ++ [snapshot] }

/-! CSV export (Portfolio.export_trades_csv). -/

/-- Fixed-point decimal rendering, modelling the Python format spec .Nf on
values exactly representable in decimal (the tie-breaking of binary float
formatting is approximated by round-half-up). -/
def fmtFixed (prec : ℕ) (q : ℚ) : String :=
  let p : ℤ := (10 : ℤ) ^ prec
  let n : ℤ := round (q * (p : ℚ))
  let sign := if n < 0 then "-" else ""
  let m := n.natAbs
  let ip := m / p.natAbs
  let fp := m % p.natAbs
  let fs := toString fp
  let pad := String.mk (List.replicate (prec - fs.length) '0')
  if prec = 0 then sign ++ toString ip
  else sign ++ toString ip ++ "." ++ pad ++ fs

/-- The reason cleanup in export_trades_csv: commas to semicolons,
newlines to spaces, truncated to 100 characters. -/
def cleanReason (r : String) : String :=
  (replaceChar (Char.ofNat 10) ' ' (replaceChar ',' ';' r)).take 100

/-- One CSV data row of export_trades_csv. -/
def TradeRecord.csvLine (t : TradeRecord) : String :=
  t.date ++ "," ++ t.action ++ "," ++ t.symbol ++ "," ++
    fmtFixed 8 t.quantity ++ "," ++ fmtFixed 2 t.price ++ "," ++
    fmtFixed 2 t.usd_amount ++ "," ++
    "\"" ++ cleanReason t.reason ++ "\"," ++ fmtFixed 2 t.portfolio_value_after

/-- The header row of export_trades_csv, exactly as in the source. -/
def exportHeader : String :=
  "date,action,symbol,quantity,price,usd_amount,reason,portfolio_value"

/-- The lines list that export_trades_csv builds before joining. -/
def Portfolio.export_trades_lines (p : Portfolio) : List String :=
  exportHeader :: p.trades.map TradeRecord.csvLine

/-- Portfolio.export_trades_csv. -/
def Portfolio.export_trades_csv (p : Portfolio) : String :=
  String.intercalate "\n" p.export_trades_lines

/-! ### Operation sequences over a portfolio (for the state invariant) -/

/-- One call to Portfolio.buy / Portfolio.sell / Portfolio.hold, with its
own price argument. -/
inductive POp where
  | buy (price usd_amount : ℚ) (date reason : String)
  | sell (price qty : ℚ) (date reason : String)
  | hold (price : ℚ) (date reason : String)
deriving Repr

/-- The price argument of an operation. -/
def POp.price : POp → ℚ
  | .buy price _ _ _ => price
  | .sell price _ _ _ => price
  | .hold price _ _ => price

/-- Apply one operation (discarding the success Bool, as the simulator
does). -/
def applyOp (p : Portfolio) (op : POp) : Portfolio :=
  match op with
  | .buy price usd_amount date reason => (p.buy date price usd_amount reason).1
  | .sell price qty date reason => (p.sell date price qty reason).1
  | .hold price date reason => p.hold date price reason

/-- Run a sequence of operations left to right. -/
def runOps (p : Portfolio) (ops : List POp) : Portfolio :=
  ops.foldl applyOp p

/-! ### TradeExecutor.execute (trade.py) -/

/-- TradeExecutor.execute: HOLD is recorded directly; a BUY whose computed
amount is below the 10 USD minimum, or a SELL whose computed quantity is
below the 0.0001 minimum, is downgraded to a HOLD with a tagged reason and
still returns True; otherwise the corresponding Portfolio call is made. -/
def TradeExecutor.execute (decision : TradeDecision) (p : Portfolio)
    (date : String) (btc_price : ℚ) : Portfolio × Bool :=
  match decision.action with
  | .HOLD => (p.hold date btc_price decision.reason, true)
  | .BUY =>
      let usd_amount := p.usd_balance * (decision.amount_pct / 100)
      if usd_amount < 10 then
        (p.hold date btc_price ("[買入金額過小] " ++ decision.reason), true)
      else
        p.buy date btc_price usd_amount decision.reason
  | .SELL =>
      let btc_quantity := p.btc_position.quantity * (decision.amount_pct / 100)
      if btc_quantity < 1 / 10000 then
        (p.hold date btc_price ("[賣出數量過小] " ++ decision.reason), true)
      else
        p.sell date btc_price btc_quantity decision.reason

/-! ### MarketContext and the rule-based personas (personas/base.py,
personas/quant.py, personas/degen.py) -/

/-- The MarketContext dataclass. -/
structure MarketContext where
  current_date : String
  btc_price : ℚ
  btc_change_pct : ℚ
  rsi : Option ℚ := none
  rsi_signal : Option String := none
  macd_signal : Option String := none
  ma_50 : Option ℚ := none
  ma_200 : Option ℚ := none
  bb_position : Option String := none
  overall_technical : Option String := none
  fear_greed_value : Option ℤ := none
  fear_greed_label : Option String := none
  news_headlines : List String := []
  news_summaries : List String := []
  portfolio_value : ℚ := 0
  usd_balance : ℚ := 0
  btc_quantity : ℚ := 0
  return_pct : ℚ := 0
deriving Repr

/-- Python truthiness of an optional string (None and the empty string are
falsy). -/
def truthyOptStr : Option String → Bool
  | some s => s ≠ ""
  | none => false

/-- Python truthiness of an optional float (None and 0.0 are falsy). -/
def truthyOptQ : Option ℚ → Bool
  | some q => q ≠ 0
  | none => false

/-- The format spec .1f used in the persona reason strings. -/
def fmt1 (q : ℚ) : String :=
  fmtFixed 1 q

/-- Model of json.dumps on the four-key decision dict the personas build
(default separators, ensure_ascii=False; the action and reason strings the
personas produce need no JSON escaping). amount_pct and confidence are
Python ints in these dicts. -/
def dumpsDecision (action : String) (amount_pct : ℕ) (reason : String)
    (confidence : ℕ) : String :=
  "\x7b\"action\": \"" ++ action ++ "\", \"amount_pct\": " ++ toString amount_pct ++
    ", \"reason\": \"" ++ reason ++ "\", \"confidence\": " ++ toString confidence ++ "\x7d"

/-- Quant.make_decision_sync: counts buy/sell signals from RSI, MACD,
Bollinger position and MA50 (half a signal), then sizes the trade by the
signal count.  Returns the json.dumps text of the decision dict. -/
def Quant.make_decision_sync (context : MarketContext) : String :=
  let acc : ℚ × ℚ × List String := (0, 0, [])
  let acc :=
    match context.rsi with
    | some r =>
        if r < 30 then (acc.1 + 1, acc.2.1, acc.2.2 ++ ["RSI=" ++ fmt1 r ++ "<30 超賣"])
        else if r > 70 then (acc.1, acc.2.1 + 1, acc.2.2 ++ ["RSI=" ++ fmt1 r ++ ">70 超買"])
        else acc
    | none => acc
  let acc :=
    if truthyOptStr context.macd_signal then
      if context.macd_signal = some "bullish" then
        (acc.1 + 1, acc.2.1, acc.2.2 ++ ["MACD 多頭"])
      else if context.macd_signal = some "bearish" then
        (acc.1, acc.2.1 + 1, acc.2.2 ++ ["MACD 空頭"])
      else acc
    else acc
  let acc :=
    if truthyOptStr context.bb_position then
      if context.bb_position = some "below_lower" then
        (acc.1 + 1, acc.2.1, acc.2.2 ++ ["價格低於 BB 下軌"])
      else if context.bb_position = some "above_upper" then
        (acc.1, acc.2.1 + 1, acc.2.2 ++ ["價格高於 BB 上軌"])
      else acc
    else acc
  let acc :=
    if truthyOptQ context.ma_50 ∧ context.btc_price ≠ 0 then
      match context.ma_50 with
      | some m =>
          if context.btc_price > m * (102 / 100) then (acc.1 + 1 / 2, acc.2.1, acc.2.2)
          else if context.btc_price < m * (98 / 100) then (acc.1, acc.2.1 + 1 / 2, acc.2.2)
          else acc
      | none => acc
    else acc
  let buy_signals := acc.1
  let sell_signals := acc.2.1
  let signal_reasons := acc.2.2
  if buy_signals ≥ sell_signals ∧ buy_signals ≥ 1 ∧ context.usd_balance > 100 then
    let (amount_pct, confidence) : ℕ × ℕ :=
      if buy_signals ≥ 3 then (40, 85)
      else if buy_signals ≥ 2 then (25, 75)
      else (15, 65)
    dumpsDecision "BUY" amount_pct
      ("買入信號: " ++ String.intercalate ", " (signal_reasons.take 3)) confidence
  else if sell_signals > buy_signals ∧ sell_signals ≥ 1 ∧ context.btc_quantity > 0 then
    let (amount_pct, confidence) : ℕ × ℕ :=
      if sell_signals ≥ 3 then (40, 85)
      else if sell_signals ≥ 2 then (25, 75)
      else (15, 65)
    dumpsDecision "SELL" amount_pct
      ("賣出信號: " ++ String.intercalate ", " (signal_reasons.take 3)) confidence
  else
    let reason := "無明確信號，維持現有倉位"
    let reason :=
      if truthyOptQ context.rsi then
        match context.rsi with
        | some r => reason ++ " (RSI=" ++ fmt1 r ++ ")"
        | none => reason
      else reason
    dumpsDecision "HOLD" 0 reason 50

/-- Degen.make_decision_sync: momentum chasing on news keywords, day
change, fear-and-greed and excess cash.  Returns the json.dumps text of
the decision dict. -/
def Degen.make_decision_sync (context : MarketContext) : String :=
  let fg_value : ℤ :=
    match context.fear_greed_value with
    | some v => if v ≠ 0 then v else 50
    | none => 50
  let change_pct := context.btc_change_pct
  let lowered := strLower (String.intercalate " " context.news_headlines)
  let has_bullish_news :=
    ["surge", "rally", "bull", "etf", "adoption", "institutional"].any
      (fun kw => strContainsSub lowered kw)
  if has_bullish_news ∧ context.usd_balance > 100 then
    dumpsDecision "BUY" 40 "利多消息！LFG 🚀🚀🚀" 85
  else if change_pct > 5 ∧ context.usd_balance > 100 then
    dumpsDecision "BUY" 35 ("大漲 " ++ fmt1 change_pct ++ "%！追起來 FOMO 🚀") 80
  else if change_pct > 3 ∧ context.usd_balance > 100 then
    dumpsDecision "BUY" 25 ("漲勢良好 " ++ fmt1 change_pct ++ "%，不能錯過") 70
  else if fg_value > 70 ∧ context.usd_balance > 100 then
    dumpsDecision "BUY" 30 ("市場 FOMO 中 (FG=" ++ toString fg_value ++ ")，跟上！") 75
  else if change_pct < -5 ∧ context.usd_balance > 100 then
    dumpsDecision "BUY" 40 ("跌 " ++ fmt1 change_pct ++ "%？這是折扣價！Diamond Hands 💎") 85
  else if change_pct < -3 ∧ context.usd_balance > 100 then
    dumpsDecision "BUY" 25 ("回調 " ++ fmt1 change_pct ++ "%，加碼好時機") 70
  else if context.usd_balance > context.portfolio_value * (1 / 2) then
    dumpsDecision "BUY" 20 "現金太多了，買起來！WAGMI" 60
  else
    dumpsDecision "HOLD" 0 "等待更明確的訊號 WAGMI 💎🙌" 50

/-- Guardian.make_decision_sync: buys only on extreme fear with the price
below MA200, takes profit on extreme greed, stop-losses below a −15 %
return, otherwise holds.  The Python truthiness of
`context.ma_200 and context.btc_price < context.ma_200` (None and 0.0
falsy) is modelled in the price_below_ma200 flag.  Returns the json.dumps
text of the decision dict. -/
def Guardian.make_decision_sync (context : MarketContext) : String :=
  let fg_value : ℤ :=
    match context.fear_greed_value with
    | some v => if v ≠ 0 then v else 50
    | none => 50
  let price_below_ma200 : Bool :=
    match context.ma_200 with
    | some m => decide (m ≠ 0 ∧ context.btc_price < m)
    | none => false
  if fg_value < 20 ∧ price_below_ma200 ∧ context.usd_balance > 100 then
    dumpsDecision "BUY" 25
      ("極度恐慌 (FG=" ++ toString fg_value ++ ")，價格低於 MA200，分批買入") 75
  else if fg_value < 25 ∧ price_below_ma200 ∧ context.usd_balance > 100 then
    dumpsDecision "BUY" 15 ("恐慌情緒 (FG=" ++ toString fg_value ++ ")，小額佈局") 65
  else if fg_value > 80 ∧ context.btc_quantity > 0 then
    dumpsDecision "SELL" 30
      ("極度貪婪 (FG=" ++ toString fg_value ++ ")，獲利了結部分持倉") 70
  else if fg_value > 75 ∧ context.btc_quantity > 0 then
    dumpsDecision "SELL" 20 ("市場過熱 (FG=" ++ toString fg_value ++ ")，減少風險敞口") 65
  else if context.return_pct < -15 ∧ context.btc_quantity > 0 then
    dumpsDecision "SELL" 50
      ("觸發止損 (虧損 " ++ fmt1 context.return_pct ++ "%)，減倉保護本金") 80
  else
    dumpsDecision "HOLD" 0 "市場情況不明朗，保持觀望" 60

/-- Strategist.make_decision_sync: counts macro keywords in the joined,
lowered headlines, reads the MA200 trend, and falls back to contrarian
fear-and-greed plays.  In the two contrarian elif branches a failing
inner condition keeps the DEFAULT reason (the trailing else that adjusts
the HOLD reason is skipped), exactly as in the source.  Returns the
json.dumps text of the decision dict. -/
def Strategist.make_decision_sync (context : MarketContext) : String :=
  let news_text := strLower (String.intercalate " " context.news_headlines)
  let bullish_keywords : List String :=
    ["etf", "approval", "approved", "institutional", "adoption",
     "blackrock", "fidelity", "regulation", "legal", "positive",
     "fed", "rate cut", "rate pause", "dovish"]
  let bearish_keywords : List String :=
    ["ban", "crackdown", "regulation", "sec", "lawsuit", "fraud",
     "hack", "bankruptcy", "collapse", "rate hike", "hawkish",
     "investigation", "criminal"]
  let bullish_count :=
    (bullish_keywords.filter (fun kw => strContainsSub news_text kw)).length
  let bearish_count :=
    (bearish_keywords.filter (fun kw => strContainsSub news_text kw)).length
  let above_ma200 : Bool :=
    match context.ma_200 with
    | some m => decide (m ≠ 0 ∧ context.btc_price > m)
    | none => false
  let below_ma200 : Bool :=
    match context.ma_200 with
    | some m => decide (m ≠ 0 ∧ context.btc_price < m)
    | none => false
  let fg_panic : Bool :=
    match context.fear_greed_value with
    | some v => decide (v ≠ 0 ∧ v < 20)
    | none => false
  let fg_euphoria : Bool :=
    match context.fear_greed_value with
    | some v => decide (v ≠ 0 ∧ v > 85)
    | none => false
  let fg_repr : String :=
    match context.fear_greed_value with
    | some v => toString v
    | none => "None"
  if bullish_count ≥ 2 ∧ context.usd_balance > 100 then
    dumpsDecision "BUY" 25 "宏觀利好消息出現，長線佈局" 75
  else if bullish_count ≥ 1 ∧ above_ma200 ∧ context.usd_balance > 100 then
    dumpsDecision "BUY" 20 "趨勢向上且有利好，逐步建倉" 70
  else if bearish_count ≥ 2 ∧ context.btc_quantity > 0 then
    dumpsDecision "SELL" 30 "宏觀利空消息出現，減少風險敞口" 75
  else if bearish_count ≥ 1 ∧ below_ma200 ∧ context.btc_quantity > 0 then
    dumpsDecision "SELL" 20 "趨勢轉弱且有利空，部分減倉" 70
  else if fg_panic then
    if context.usd_balance > 100 then
      dumpsDecision "BUY" 15 ("極度恐慌 (FG=" ++ fg_repr ++ ")，逆向長線佈局") 65
    else
      dumpsDecision "HOLD" 0 "宏觀環境穩定，維持現有配置" 55
  else if fg_euphoria then
    if context.btc_quantity > 0 then
      dumpsDecision "SELL" 15 ("極度貪婪 (FG=" ++ fg_repr ++ ")，適度獲利了結") 65
    else
      dumpsDecision "HOLD" 0 "宏觀環境穩定，維持現有配置" 55
  else
    if above_ma200 then
      dumpsDecision "HOLD" 0 "價格在 MA200 上方，長期趨勢健康，繼續持有" 55
    else if below_ma200 then
      dumpsDecision "HOLD" 0 "價格在 MA200 下方，等待更好的入場時機" 55
    else
      dumpsDecision "HOLD" 0 "宏觀環境不明朗，保持耐心等待" 55

/-! ### The simulation orchestrator (simulator.py)

Calendar dates are modelled by natural day indices; strftime is modelled
by the environment's dateStr rendering (the code only relies on distinct
dates rendering distinctly).  The external collaborators — the price
source, the technical-indicator engine, the news and fear-and-greed
caches, json.loads, and the AI backend — are fields of the environment;
everything downstream of them is the repository's code. -/

/-- One daily OHLC bar, restricted to the open and close fields the
simulator reads. -/
structure Bar where
  openP : ℚ
  closeP : ℚ
deriving Repr, DecidableEq

/-- The technical-indicator dict for one date (absent fields are none,
matching the empty dict when fewer than 50 bars are available). -/
structure TechData where
  rsi : Option ℚ := none
  rsi_signal : Option String := none
  macd_signal : Option String := none
  ma_50 : Option ℚ := none
  ma_200 : Option ℚ := none
  bb_position : Option String := none
  overall_signal : Option String := none
deriving Repr

/-- The PersonaConfig information-access flags the context builder reads. -/
structure PersonaConfigR where
  use_news : Bool := true
  use_technical : Bool := true
  use_fear_greed : Bool := true
deriving Repr, DecidableEq

/-- Outcome of one send_and_wait call on the AI backend: a response, an
asyncio.TimeoutError, or any other exception. -/
inductive AgentOutcome where
  | success (content : String)
  | timeout
  | failure
deriving Repr

/-- One persona as the simulator sees it: its id, its config flags, its
rule-based decision function (make_decision_sync) and the AI backend's
behaviour on its prompts (a collaborator, hence a function parameter). -/
structure SimPersona where
  pid : String
  config : PersonaConfigR
  decide_rule : MarketContext → String
  ai : MarketContext → AgentOutcome

/-- The run statistics dict of ChronosSimulator. -/
structure Stats where
  ai_decisions : ℕ := 0
  rule_decisions : ℕ := 0
  timeout_fallbacks : ℕ := 0
  error_fallbacks : ℕ := 0
deriving Repr, DecidableEq

/-- The simulation environment: date rendering and the external data
collaborators. -/
structure SimEnv where
  dateStr : ℕ → String
  priceData : ℕ → Option Bar
  tech : ℕ → TechData
  newsFor : ℕ → List String
  fearGreedFor : ℕ → Option (ℤ × String)
  loads : String → Option JValue

/-- One persona together with its exclusively-owned portfolio (the
personas and portfolios dicts share their keys). -/
structure Agent where
  persona : SimPersona
  portfolio : Portfolio

/-- The DailyResult dataclass (dates as day indices, decisions kept
structured rather than as to_dict output). -/
structure DailyResult where
  date : ℕ
  btc_price : ℚ
  btc_change_pct : ℚ
  decisions : List (String × TradeDecision)
  portfolio_values : List (String × ℚ)
  debate_file : Option String := none

/-- The simulator's mutable state: agents, accumulated results, recorded
prices and statistics. -/
structure SimState where
  agents : List Agent
  daily_results : List DailyResult
  btc_prices : List (ℕ × ℚ)
  stats : Stats

/-- The initial simulator state (_init_components): one fresh portfolio
per persona, empty histories, zeroed statistics. -/
def simInit (personas : List SimPersona) (initial_capital : ℚ) : SimState :=
  { agents := personas.map
      (fun p => { persona := p, portfolio := Portfolio.init p.pid initial_capital })
    daily_results := []
    btc_prices := []
    stats := {} }

/-- ChronosSimulator._build_context_for_persona: the persona-scoped view
of the date's market state; fields gated by the persona's info flags. -/
def build_context_for_persona (env : SimEnv) (persona : SimPersona)
    (portfolio : Portfolio) (d : ℕ) (bar : Bar) : MarketContext :=
  let btc_price := bar.closeP
  let btc_open := bar.openP
  let btc_change_pct := if btc_open > 0 then (btc_price - btc_open) / btc_open * 100 else 0
  let news_headlines := if persona.config.use_news then env.newsFor d else []
  let fg := if persona.config.use_fear_greed then env.fearGreedFor d else none
  let t := env.tech d
  { current_date := env.dateStr d
    btc_price := btc_price
    btc_change_pct := btc_change_pct
    rsi := if persona.config.use_technical then t.rsi else none
    rsi_signal := if persona.config.use_technical then t.rsi_signal else none
    macd_signal := if persona.config.use_technical then t.macd_signal else none
    ma_50 := if persona.config.use_technical then t.ma_50 else none
    ma_200 := if persona.config.use_technical then t.ma_200 else none
    bb_position := if persona.config.use_technical then t.bb_position else none
    overall_technical := if persona.config.use_technical then t.overall_signal else none
    fear_greed_value := fg.map (fun x => x.1)
    fear_greed_label := fg.map (fun x => x.2)
    news_headlines := news_headlines
    portfolio_value := portfolio.get_total_value btc_price
    usd_balance := portfolio.usd_balance
    btc_quantity := portfolio.btc_position.quantity
    return_pct := portfolio.get_return_pct btc_price }

/-- ChronosSimulator._get_decision_from_main_agent: a successful AI call
counts as an ai decision; a timeout or any other failure is counted and
degraded, inside this call, to the persona's rule-based decision — the
failure is never re-raised. -/
def get_decision_from_main_agent (persona : SimPersona) (context : MarketContext)
    (stats : Stats) : String × Stats :=
  match persona.ai context with
  | .success content =>
      (content, { stats with ai_decisions := stats.ai_decisions + 1 })
  | .timeout =>
      let stats := { stats with timeout_fallbacks := stats.timeout_fallbacks + 1 }
      (persona.decide_rule context,
        { stats with rule_decisions := stats.rule_decisions + 1 })
  | .failure =>
      let stats := { stats with error_fallbacks := stats.error_fallbacks + 1 }
      (persona.decide_rule context,
        { stats with rule_decisions := stats.rule_decisions + 1 })

/-- The per-persona body of the AI-mode day loop (_run_simulation with
use_ai): decide via the main agent, parse, execute, snapshot; collects
the decision and post-trade value per persona in declaration order.  An
uncaught parser exception propagates. -/
def runPersonasAI (env : SimEnv) (d : ℕ) (bar : Bar) (btc_price : ℚ) :
    List Agent → Stats →
    Except PyExc (List Agent × Stats × List (String × TradeDecision) × List (String × ℚ))
  | [], stats => .ok ([], stats, [], [])
  | agent :: rest, stats =>
      let context := build_context_for_persona env agent.persona agent.portfolio d bar
      let rs := get_decision_from_main_agent agent.persona context stats
      match parse_decision rs.1 (env.loads rs.1) with
      | .error e => .error e
      | .ok decision =>
          let pf1 := (TradeExecutor.execute decision agent.portfolio (env.dateStr d) btc_price).1
          let pf2 := pf1.take_snapshot (env.dateStr d) btc_price
          match runPersonasAI env d bar btc_price rest rs.2 with
          | .error e => .error e
          | .ok (rest', stats', decs, vals) =>
              .ok ({ persona := agent.persona, portfolio := pf2 } :: rest', stats',
                (agent.persona.pid, decision) :: decs,
                (agent.persona.pid, pf2.get_total_value btc_price) :: vals)

/-- The per-persona body of the rule-only day loop (_run_simulation_sync):
identical to the AI-mode body except the decision comes directly from
make_decision_sync and the statistics are untouched. -/
def runPersonasSync (env : SimEnv) (d : ℕ) (bar : Bar) (btc_price : ℚ) :
    List Agent →
    Except PyExc (List Agent × List (String × TradeDecision) × List (String × ℚ))
  | [] => .ok ([], [], [])
  | agent :: rest =>
      let context := build_context_for_persona env agent.persona agent.portfolio d bar
      let response := agent.persona.decide_rule context
      match parse_decision response (env.loads response) with
      | .error e => .error e
      | .ok decision =>
          let pf1 := (TradeExecutor.execute decision agent.portfolio (env.dateStr d) btc_price).1
          let pf2 := pf1.take_snapshot (env.dateStr d) btc_price
          match runPersonasSync env d bar btc_price rest with
          | .error e => .error e
          | .ok (rest', decs, vals) =>
              .ok ({ persona := agent.persona, portfolio := pf2 } :: rest',
                (agent.persona.pid, decision) :: decs,
                (agent.persona.pid, pf2.get_total_value btc_price) :: vals)

/-- One AI-mode day with price data present: record the price, run all
personas, append the DailyResult.  Debate generation is an excluded
collaborator, modelled with generate_debates disabled. -/
def simDayAI (env : SimEnv) (d : ℕ) (bar : Bar) (st : SimState) :
    Except PyExc SimState :=
  let btc_price := bar.closeP
  let btc_open := bar.openP
  let btc_change_pct := if btc_open > 0 then (btc_price - btc_open) / btc_open * 100 else 0
  match runPersonasAI env d bar btc_price st.agents st.stats with
  | .error e => .error e
  | .ok (agents', stats', decs, vals) =>
      .ok { agents := agents'
            stats := stats'
            btc_prices := st.btc_prices ++ [(d, btc_price)]
            daily_results := st.daily_results ++
              [{ date := d, btc_price := btc_price, btc_change_pct := btc_change_pct
                 decisions := decs, portfolio_values := vals, debate_file := none }] }

/-- One rule-only day with price data present. -/
def simDaySync (env : SimEnv) (d : ℕ) (bar : Bar) (st : SimState) :
    Except PyExc SimState :=
  let btc_price := bar.closeP
  let btc_open := bar.openP
  let btc_change_pct := if btc_open > 0 then (btc_price - btc_open) / btc_open * 100 else 0
  match runPersonasSync env d bar btc_price st.agents with
  | .error e => .error e
  | .ok (agents', decs, vals) =>
      .ok { agents := agents'
            stats := st.stats
            btc_prices := st.btc_prices ++ [(d, btc_price)]
            daily_results := st.daily_results ++
              [{ date := d, btc_price := btc_price, btc_change_pct := btc_change_pct
                 decisions := decs, portfolio_values := vals, debate_file := none }] }

/-- The AI-mode date loop: a date without price data is logged and
skipped — no trades, no snapshots, no DailyResult — and the loop goes on. -/
def runSimDaysAI (env : SimEnv) : List ℕ → SimState → Except PyExc SimState
  | [], st => .ok st
  | d :: rest, st =>
      match env.priceData d with
      | none => runSimDaysAI env rest st
      | some bar =>
          match simDayAI env d bar st with
          | .error e => .error e
          | .ok st' => runSimDaysAI env rest st'

/-- The rule-only date loop, with the same skip behaviour. -/
def runSimDaysSync (env : SimEnv) : List ℕ → SimState → Except PyExc SimState
  | [], st => .ok st
  | d :: rest, st =>
      match env.priceData d with
      | none => runSimDaysSync env rest st
      | some bar =>
          match simDaySync env d bar st with
          | .error e => .error e
          | .ok st' => runSimDaysSync env rest st'

/-- The calendar dates of the range, start through endD inclusive
(total_days many when start ≤ endD). -/
def dateRange (startD endD : ℕ) : List ℕ :=
  List.range' startD (endD + 1 - startD)

/-- ChronosSimulator._run_simulation with use_ai (the whole-range AI-mode
loop). -/
def run_simulation (env : SimEnv) (startD endD : ℕ) (st : SimState) :
    Except PyExc SimState :=
  runSimDaysAI env (dateRange startD endD) st

/-- ChronosSimulator._run_simulation_sync (the whole-range rule-only
loop). -/
def run_simulation_sync (env : SimEnv) (startD endD : ℕ) (st : SimState) :
    Except PyExc SimState :=
  runSimDaysSync env (dateRange startD endD) st

/-- No trade record and no snapshot of the portfolio carries the given
date string. -/
def NoRecordsDated (ds : String) (p : Portfolio) : Prop :=
  (∀ t ∈ p.trades, t.date ≠ ds) ∧ (∀ s ∈ p.snapshots, s.date ≠ ds)

/-! ### Concrete instances used to exercise the theorems -/

/-- A date rendering that is injective, the only property of strftime the
simulator relies on. -/
def wDateStr (n : ℕ) : String :=
  String.mk (List.replicate n 'd')

/-- A flat price bar. -/
def wBar : Bar :=
  { openP := 100, closeP := 100 }

/-- A three-day environment whose middle date has no price data and whose
responses never contain extractable JSON (so parsing always succeeds via
the fallback branch). -/
def wEnv : SimEnv :=
  { dateStr := wDateStr
    priceData := fun d => if d = 1 then none else some wBar
    tech := fun _ => {}
    newsFor := fun _ => []
    fearGreedFor := fun _ => none
    loads := fun _ => none }

/-- A persona whose AI backend always times out. -/
def wPersona : SimPersona :=
  { pid := "quant"
    config := {}
    decide_rule := fun _ => "hold"
    ai := fun _ => .timeout }

/-- A sample market context. -/
def wCtx : MarketContext :=
  { current_date := "2024-01-05", btc_price := 50000, btc_change_pct := 2
    usd_balance := 1000, btc_quantity := 1 }

/-- A portfolio holding 0.00005 BTC, below the 0.0001 SELL minimum. -/
def wSellPortfolio : Portfolio :=
  { Portfolio.init "degen" 0 with
      btc_position := { symbol := "BTC", quantity := 1 / 20000, avg_cost := 60000 } }

/-- A portfolio with 100 USD cash and 2 BTC held at average cost 50. -/
def wPortfolio2 : Portfolio :=
  { Portfolio.init "strategist" 100 with
      btc_position := { symbol := "BTC", quantity := 2, avg_cost := 50 } }

/-! ## Theorems -/

/-- C1.  The spec declares TradeExecutor.parse_decision a total function
that never raises on any input.  The code contradicts this: its
except-clause catches JSONDecodeError, KeyError and TypeError but not the
ValueError that float() raises on a non-numeric string.  On the input
text below — well-formed JSON whose amount_pct field is the string abc —
the regex extraction matches the whole text and json.loads yields the
recorded object, after which float on the string abc raises an uncaught
ValueError.  The theorem evaluates the embedded parser at exactly this
input. -/
theorem parse_decision_raises_on_nonnumeric_amount_pct :
    parse_decision "\x7b\"action\": \"BUY\", \"amount_pct\": \"abc\"\x7d"
      (some (.jobj [("action", .jstr "BUY"), ("amount_pct", .jstr "abc")])) =
      .error .valueError := by
  rfl

/-- C9, counterexample.  The claim names the last CSV column
portfolio_value_after, but the header row the code writes ends in
portfolio_value: already the export of a fresh portfolio (whose whole
CSV is the header row) differs from the claimed header. -/
theorem export_header_differs_from_claimed :
    (Portfolio.init "quant" 1000000).export_trades_csv =
        "date,action,symbol,quantity,price,usd_amount,reason,portfolio_value" ∧
    (Portfolio.init "quant" 1000000).export_trades_csv ≠
        "date,action,symbol,quantity,price,usd_amount,reason,portfolio_value_after" := by
  constructor
  · rfl
  · decide

/-- C9, amended.  The exported per-persona CSV trade log has exactly the
columns date, action, symbol, quantity, price, usd_amount, reason,
portfolio_value — in that order as its header row (the last column holds
each record's portfolio_value_after value but is headed portfolio_value) —
followed by one data row per TradeRecord in history order. -/
theorem export_trades_csv_layout (p : Portfolio) :
    p.export_trades_lines.head? =
      some "date,action,symbol,quantity,price,usd_amount,reason,portfolio_value" ∧
    p.export_trades_lines.length = p.trades.length + 1 ∧
    (∀ i : ℕ, p.export_trades_lines[i + 1]? =
      (p.trades[i]?).map TradeRecord.csvLine) ∧
    p.export_trades_csv = String.intercalate "\n" p.export_trades_lines := by
  refine ⟨rfl, by simp [Portfolio.export_trades_lines], fun i => ?_, rfl⟩
  simp [Portfolio.export_trades_lines, exportHeader]

/-- Portfolio.hold changes nothing but the trade history. -/
theorem hold_state (p : Portfolio) (date : String) (btc_price : ℚ) (reason : String) :
    (p.hold date btc_price reason).usd_balance = p.usd_balance ∧
    (p.hold date btc_price reason).btc_position = p.btc_position ∧
    (p.hold date btc_price reason).snapshots = p.snapshots ∧
    (p.hold date btc_price reason).trades =
      p.trades ++ [{ date := date, action := "HOLD", symbol := "BTC", quantity := 0
                     price := btc_price, usd_amount := 0, reason := reason
                     portfolio_value_after := p.get_total_value btc_price }] := by
  refine ⟨rfl, rfl, rfl, rfl⟩

/-- C5.  TradeExecutor.execute downgrades to HOLD below the minimums: a
BUY whose computed amount cash·pct/100 is under 10 USD, and a SELL whose
computed quantity held·pct/100 is under 0.0001, each record a HOLD with
the tagged reason, return True, and leave the cash balance and the
position (quantity and average cost) unchanged. -/
theorem execute_downgrades_small_trades_to_hold (decision : TradeDecision)
    (p : Portfolio) (date : String) (btc_price : ℚ) :
    (decision.action = .BUY →
      p.usd_balance * (decision.amount_pct / 100) < 10 →
      TradeExecutor.execute decision p date btc_price =
        (p.hold date btc_price ("[買入金額過小] " ++ decision.reason), true) ∧
      (TradeExecutor.execute decision p date btc_price).1.usd_balance = p.usd_balance ∧
      (TradeExecutor.execute decision p date btc_price).1.btc_position = p.btc_position) ∧
    (decision.action = .SELL →
      p.btc_position.quantity * (decision.amount_pct / 100) < 1 / 10000 →
      TradeExecutor.execute decision p date btc_price =
        (p.hold date btc_price ("[賣出數量過小] " ++ decision.reason), true) ∧
      (TradeExecutor.execute decision p date btc_price).1.usd_balance = p.usd_balance ∧
      (TradeExecutor.execute decision p date btc_price).1.btc_position = p.btc_position) := by
  constructor
  · intro ha hsmall
    have he : TradeExecutor.execute decision p date btc_price =
        (p.hold date btc_price ("[買入金額過小] " ++ decision.reason), true) := by
      simp only [TradeExecutor.execute, ha]
      rw [if_pos hsmall]
    exact ⟨he, by rw [he]; exact (hold_state p date btc_price _).1,
      by rw [he]; exact (hold_state p date btc_price _).2.1⟩
  · intro ha hsmall
    have he : TradeExecutor.execute decision p date btc_price =
        (p.hold date btc_price ("[賣出數量過小] " ++ decision.reason), true) := by
      simp only [TradeExecutor.execute, ha]
      rw [if_pos hsmall]
    exact ⟨he, by rw [he]; exact (hold_state p date btc_price _).1,
      by rw [he]; exact (hold_state p date btc_price _).2.1⟩

/-- C5 witness: the spec's own scenario — a SELL with amount_pct = 100 on
a portfolio holding 0.00005 BTC (below the 0.0001 minimum) executes as a
HOLD and leaves balance and position untouched. -/
theorem execute_downgrades_small_trades_witness :
    wSellPortfolio.btc_position.quantity * ((100 : ℚ) / 100) < 1 / 10000 ∧
    TradeExecutor.execute
        { action := .SELL, amount_pct := 100, reason := "r", confidence := 50 }
        wSellPortfolio "2024-01-05" 50000 =
      (wSellPortfolio.hold "2024-01-05" 50000 ("[賣出數量過小] " ++ "r"), true) ∧
    (TradeExecutor.execute
        { action := .SELL, amount_pct := 100, reason := "r", confidence := 50 }
        wSellPortfolio "2024-01-05" 50000).1.usd_balance = wSellPortfolio.usd_balance ∧
    (TradeExecutor.execute
        { action := .SELL, amount_pct := 100, reason := "r", confidence := 50 }
        wSellPortfolio "2024-01-05" 50000).1.btc_position = wSellPortfolio.btc_position := by
  refine ⟨by norm_num [wSellPortfolio, Portfolio.init], ?_⟩
  exact (execute_downgrades_small_trades_to_hold
      { action := .SELL, amount_pct := 100, reason := "r", confidence := 50 }
      wSellPortfolio "2024-01-05" 50000).2 rfl
    (by norm_num [wSellPortfolio, Portfolio.init])

/-- Position.update on a positive delta: the quantity grows by the delta
and the average cost is the weighted average whenever the new quantity is
positive. -/
theorem update_pos_delta (pos : Position) (delta price : ℚ) (hd : 0 < delta) :
    (pos.update delta price).quantity = pos.quantity + delta ∧
    (pos.update delta price).avg_cost =
      (if 0 < pos.quantity + delta then
        (pos.quantity * pos.avg_cost + delta * price) / (pos.quantity + delta)
      else pos.avg_cost) ∧
    (pos.update delta price).symbol = pos.symbol := by
  simp only [Position.update, Position.cost_basis, if_pos hd]
  split
  · rename_i h
    simp [if_pos h]
  · rename_i h
    simp [if_neg h]

/-- Position.update on a non-positive delta: the average cost is
untouched unless the resulting quantity is ≤ 0, in which case both fields
reset to 0. -/
theorem update_nonpos_delta (pos : Position) (delta price : ℚ) (hd : ¬ 0 < delta) :
    (pos.update delta price).quantity =
      (if pos.quantity + delta ≤ 0 then 0 else pos.quantity + delta) ∧
    (pos.update delta price).avg_cost =
      (if pos.quantity + delta ≤ 0 then 0 else pos.avg_cost) ∧
    (pos.update delta price).symbol = pos.symbol := by
  simp only [Position.update, Position.cost_basis, if_neg hd]
  split
  · rename_i h
    simp [if_pos h]
  · rename_i h
    simp [if_neg h]

/-- Equational description of Portfolio.buy: the no-op branch and each
component of the successful branch. -/
theorem buy_components (p : Portfolio) (date : String) (price amt : ℚ) (reason : String) :
    ((if amt > p.usd_balance then p.usd_balance else amt) ≤ 0 →
       p.buy date price amt reason = (p, false)) ∧
    (¬ (if amt > p.usd_balance then p.usd_balance else amt) ≤ 0 →
       (p.buy date price amt reason).2 = true ∧
       (p.buy date price amt reason).1.usd_balance =
         p.usd_balance - (if amt > p.usd_balance then p.usd_balance else amt) ∧
       (p.buy date price amt reason).1.btc_position =
         p.btc_position.update
           ((if amt > p.usd_balance then p.usd_balance else amt) / price) price ∧
       (p.buy date price amt reason).1.snapshots = p.snapshots ∧
       (p.buy date price amt reason).1.initial_capital = p.initial_capital ∧
       (p.buy date price amt reason).1.trades = p.trades ++
         [{ date := date, action := "BUY", symbol := "BTC"
            quantity := (if amt > p.usd_balance then p.usd_balance else amt) / price
            price := price
            usd_amount := (if amt > p.usd_balance then p.usd_balance else amt)
            reason := reason
            portfolio_value_after :=
              (p.usd_balance - (if amt > p.usd_balance then p.usd_balance else amt)) +
                (p.btc_position.update
                  ((if amt > p.usd_balance then p.usd_balance else amt) / price)
                    price).quantity * price }]) := by
  constructor
  · intro h
    simp only [Portfolio.buy]
    rw [if_pos h]
  · intro h
    simp only [Portfolio.buy]
    rw [if_neg h]
    refine ⟨rfl, rfl, rfl, rfl, rfl, rfl⟩

/-- Equational description of Portfolio.sell: the no-op branch and each
component of the successful branch. -/
theorem sell_components (p : Portfolio) (date : String) (price qty : ℚ) (reason : String) :
    ((if qty > p.btc_position.quantity then p.btc_position.quantity else qty) ≤ 0 →
       p.sell date price qty reason = (p, false)) ∧
    (¬ (if qty > p.btc_position.quantity then p.btc_position.quantity else qty) ≤ 0 →
       (p.sell date price qty reason).2 = true ∧
       (p.sell date price qty reason).1.usd_balance =
         p.usd_balance +
           (if qty > p.btc_position.quantity then p.btc_position.quantity else qty) * price ∧
       (p.sell date price qty reason).1.btc_position =
         p.btc_position.update
           (-(if qty > p.btc_position.quantity then p.btc_position.quantity else qty)) price ∧
       (p.sell date price qty reason).1.snapshots = p.snapshots ∧
       (p.sell date price qty reason).1.initial_capital = p.initial_capital ∧
       ∃ t : TradeRecord,
         (p.sell date price qty reason).1.trades = p.trades ++ [t] ∧
         t.action = "SELL" ∧ t.date = date) := by
  constructor
  · intro h
    simp only [Portfolio.sell]
    rw [if_pos h]
  · intro h
    simp only [Portfolio.sell]
    rw [if_neg h]
    exact ⟨rfl, rfl, rfl, rfl, rfl, _, rfl, rfl, rfl⟩

/-- C10.  A successful Portfolio.buy or Portfolio.sell at price p leaves
get_total_value p unchanged: cash is exchanged exactly for quantity times
price, with no fees or slippage. -/
theorem trade_preserves_total_value (p : Portfolio) (date : String)
    (price amt qty : ℚ) (reason : String) (hp : 0 < price) :
    ((p.buy date price amt reason).2 = true →
      (p.buy date price amt reason).1.get_total_value price = p.get_total_value price) ∧
    ((p.sell date price qty reason).2 = true →
      (p.sell date price qty reason).1.get_total_value price = p.get_total_value price) := by
  constructor
  · intro hs
    by_cases h : (if amt > p.usd_balance then p.usd_balance else amt) ≤ 0
    · rw [(buy_components p date price amt reason).1 h] at hs
      exact absurd hs (by simp)
    · obtain ⟨-, hbal, hposn, -, -, -⟩ := (buy_components p date price amt reason).2 h
      push_neg at h
      have hd : 0 < (if amt > p.usd_balance then p.usd_balance else amt) / price :=
        div_pos h hp
      obtain ⟨hq, -, -⟩ := update_pos_delta p.btc_position _ price hd
      rw [← hposn] at hq
      simp only [Portfolio.get_total_value, hbal, hq]
      field_simp
  · intro hs
    set c := (if qty > p.btc_position.quantity then p.btc_position.quantity else qty) with hc
    by_cases h : c ≤ 0
    · rw [(sell_components p date price qty reason).1 h] at hs
      exact absurd hs (by simp)
    · obtain ⟨-, hbal, hposn, -, -, -⟩ := (sell_components p date price qty reason).2 h
      rw [← hc] at hbal hposn
      push_neg at h
      have hcle : c ≤ p.btc_position.quantity := by
        rw [hc]
        by_cases hgt : qty > p.btc_position.quantity
        · rw [if_pos hgt]
        · rw [if_neg hgt]
          exact le_of_not_lt hgt
      have hd : ¬ 0 < -c := by linarith
      obtain ⟨hqe, -, -⟩ := update_nonpos_delta p.btc_position (-c) price hd
      rw [← hposn] at hqe
      simp only [Portfolio.get_total_value, hbal, hqe]
      by_cases hz : p.btc_position.quantity + -c ≤ 0
      · rw [if_pos hz]
        have hce : c = p.btc_position.quantity := le_antisymm hcle (by linarith)
        rw [hce]
        ring
      · rw [if_neg hz]
        ring

/-- C10 witness: a concrete buy and sell at price 100 on a fresh
1000-dollar portfolio, both value-preserving. -/
theorem trade_preserves_total_value_witness :
    (0 : ℚ) < 100 ∧
    ((((Portfolio.init "x" 1000).buy "d" 100 500 "r").2 = true →
      ((Portfolio.init "x" 1000).buy "d" 100 500 "r").1.get_total_value 100 =
        (Portfolio.init "x" 1000).get_total_value 100) ∧
     (((Portfolio.init "x" 1000).sell "d" 100 1 "r").2 = true →
      ((Portfolio.init "x" 1000).sell "d" 100 1 "r").1.get_total_value 100 =
        (Portfolio.init "x" 1000).get_total_value 100)) :=
  ⟨by norm_num,
   trade_preserves_total_value (Portfolio.init "x" 1000) "d" 100 500 1 "r" (by norm_num)⟩

/-- C2.  Portfolio.buy clamps an over-budget amount to the cash balance
(leaving the balance at 0 and the full proceeds invested); a clamped
amount ≤ 0 is a no-op returning False that changes no state; a successful
buy returns True, sets the new average cost to the weighted average
(old_qty·old_avg + qty·price)/(old_qty + qty) with qty = amount/price,
and appends exactly one BUY TradeRecord carrying the post-trade portfolio
value. -/
theorem buy_clamps_and_averages (p : Portfolio) (date : String) (price amt : ℚ)
    (reason : String) (hp : 0 < price) (hb : 0 ≤ p.usd_balance)
    (hq : 0 ≤ p.btc_position.quantity) :
    (amt > p.usd_balance →
       (p.buy date price amt reason).1.usd_balance = 0 ∧
       (p.buy date price amt reason).1.btc_position.quantity =
         p.btc_position.quantity + p.usd_balance / price) ∧
    ((if amt > p.usd_balance then p.usd_balance else amt) ≤ 0 →
       p.buy date price amt reason = (p, false)) ∧
    (0 < (if amt > p.usd_balance then p.usd_balance else amt) →
       (p.buy date price amt reason).2 = true ∧
       (p.buy date price amt reason).1.btc_position.avg_cost =
         (p.btc_position.quantity * p.btc_position.avg_cost +
           ((if amt > p.usd_balance then p.usd_balance else amt) / price) * price) /
           (p.btc_position.quantity +
             (if amt > p.usd_balance then p.usd_balance else amt) / price) ∧
       ∃ t : TradeRecord,
         (p.buy date price amt reason).1.trades = p.trades ++ [t] ∧
         t.action = "BUY" ∧
         t.usd_amount = (if amt > p.usd_balance then p.usd_balance else amt) ∧
         t.quantity = (if amt > p.usd_balance then p.usd_balance else amt) / price ∧
         t.portfolio_value_after =
           (p.buy date price amt reason).1.get_total_value price) := by
  have key : 0 < (if amt > p.usd_balance then p.usd_balance else amt) →
      (p.buy date price amt reason).2 = true ∧
      (p.buy date price amt reason).1.usd_balance =
        p.usd_balance - (if amt > p.usd_balance then p.usd_balance else amt) ∧
      (p.buy date price amt reason).1.btc_position.quantity =
        p.btc_position.quantity +
          (if amt > p.usd_balance then p.usd_balance else amt) / price ∧
      (p.buy date price amt reason).1.btc_position.avg_cost =
        (p.btc_position.quantity * p.btc_position.avg_cost +
          ((if amt > p.usd_balance then p.usd_balance else amt) / price) * price) /
          (p.btc_position.quantity +
            (if amt > p.usd_balance then p.usd_balance else amt) / price) ∧
      ∃ t : TradeRecord,
        (p.buy date price amt reason).1.trades = p.trades ++ [t] ∧
        t.action = "BUY" ∧
        t.usd_amount = (if amt > p.usd_balance then p.usd_balance else amt) ∧
        t.quantity = (if amt > p.usd_balance then p.usd_balance else amt) / price ∧
        t.portfolio_value_after =
          (p.buy date price amt reason).1.get_total_value price := by
    intro hgt
    obtain ⟨hret, hbal, hposn, -, -, htr⟩ :=
      (buy_components p date price amt reason).2 (not_le.mpr hgt)
    have hd : 0 < (if amt > p.usd_balance then p.usd_balance else amt) / price :=
      div_pos hgt hp
    obtain ⟨hqe, hae, -⟩ := update_pos_delta p.btc_position _ price hd
    rw [← hposn] at hqe hae
    have hsum : 0 < p.btc_position.quantity +
        (if amt > p.usd_balance then p.usd_balance else amt) / price := by
      linarith
    rw [if_pos hsum] at hae
    refine ⟨hret, hbal, hqe, hae, ?_⟩
    refine ⟨_, htr, rfl, rfl, rfl, ?_⟩
    simp only [Portfolio.get_total_value, hbal, hposn]
  refine ⟨?_, (buy_components p date price amt reason).1, fun hgt =>
    ⟨(key hgt).1, (key hgt).2.2.2.1, (key hgt).2.2.2.2⟩⟩
  intro hamt
  by_cases hz : p.usd_balance ≤ 0
  · have hb0 : p.usd_balance = 0 := le_antisymm hz hb
    have hcl : (if amt > p.usd_balance then p.usd_balance else amt) ≤ 0 := by
      rw [if_pos hamt]; exact hz
    rw [(buy_components p date price amt reason).1 hcl]
    simp [hb0]
  · push_neg at hz
    have hgt : 0 < (if amt > p.usd_balance then p.usd_balance else amt) := by
      rw [if_pos hamt]; exact hz
    obtain ⟨-, hbal, hqe, -, -⟩ := key hgt
    rw [if_pos hamt] at hbal hqe
    exact ⟨by rw [hbal]; ring, hqe⟩

/-- C2 witness: buying 2000 USD with only 1000 USD cash at price 100
clamps to the full balance — cash ends at 0 and the position grows by
1000/100 BTC — and the average-cost and trade-record conclusions hold. -/
theorem buy_clamps_and_averages_witness :
    (2000 : ℚ) > (Portfolio.init "x" 1000).usd_balance ∧
    (((Portfolio.init "x" 1000).buy "d" 100 2000 "r").1.usd_balance = 0 ∧
     ((Portfolio.init "x" 1000).buy "d" 100 2000 "r").1.btc_position.quantity =
       (Portfolio.init "x" 1000).btc_position.quantity +
         (Portfolio.init "x" 1000).usd_balance / 100) :=
  ⟨by norm_num [Portfolio.init],
   (buy_clamps_and_averages (Portfolio.init "x" 1000) "d" 100 2000 "r"
      (by norm_num) (by norm_num [Portfolio.init]) (by norm_num [Portfolio.init])).1
     (by norm_num [Portfolio.init])⟩

/-- C3.  Portfolio.sell clamps an over-held quantity to the held quantity
(ending with quantity 0); a partial sale that leaves a positive quantity
keeps the average cost unchanged; whenever the resulting quantity is ≤ 0
both the quantity and the average cost are reset to 0. -/
theorem sell_clamps_and_resets (p : Portfolio) (date : String) (price qty : ℚ)
    (reason : String) (hq : 0 ≤ p.btc_position.quantity) :
    (qty > p.btc_position.quantity →
       (p.sell date price qty reason).1.btc_position.quantity = 0) ∧
    (0 < (if qty > p.btc_position.quantity then p.btc_position.quantity else qty) →
     0 < p.btc_position.quantity -
        (if qty > p.btc_position.quantity then p.btc_position.quantity else qty) →
       (p.sell date price qty reason).1.btc_position.avg_cost =
         p.btc_position.avg_cost ∧
       (p.sell date price qty reason).1.btc_position.quantity =
         p.btc_position.quantity -
           (if qty > p.btc_position.quantity then p.btc_position.quantity else qty)) ∧
    (0 < (if qty > p.btc_position.quantity then p.btc_position.quantity else qty) →
     p.btc_position.quantity -
        (if qty > p.btc_position.quantity then p.btc_position.quantity else qty) ≤ 0 →
       (p.sell date price qty reason).1.btc_position.quantity = 0 ∧
       (p.sell date price qty reason).1.btc_position.avg_cost = 0) := by
  have key : 0 < (if qty > p.btc_position.quantity then p.btc_position.quantity else qty) →
      (p.sell date price qty reason).1.btc_position.quantity =
        (if p.btc_position.quantity +
            -(if qty > p.btc_position.quantity then p.btc_position.quantity else qty) ≤ 0
         then 0
         else p.btc_position.quantity +
            -(if qty > p.btc_position.quantity then p.btc_position.quantity else qty)) ∧
      (p.sell date price qty reason).1.btc_position.avg_cost =
        (if p.btc_position.quantity +
            -(if qty > p.btc_position.quantity then p.btc_position.quantity else qty) ≤ 0
         then 0 else p.btc_position.avg_cost) := by
    intro hgt
    obtain ⟨-, -, hposn, -, -, -⟩ :=
      (sell_components p date price qty reason).2 (not_le.mpr hgt)
    have hd : ¬ 0 <
        -(if qty > p.btc_position.quantity then p.btc_position.quantity else qty) := by
      linarith
    obtain ⟨hqe, hae, -⟩ := update_nonpos_delta p.btc_position _ price hd
    rw [← hposn] at hqe hae
    exact ⟨hqe, hae⟩
  refine ⟨?_, ?_, ?_⟩
  · intro hover
    by_cases hz : p.btc_position.quantity ≤ 0
    · have hcl : (if qty > p.btc_position.quantity then p.btc_position.quantity else qty) ≤ 0 := by
        rw [if_pos hover]; exact hz
      rw [(sell_components p date price qty reason).1 hcl]
      exact le_antisymm hz hq
    · push_neg at hz
      have hgt : 0 < (if qty > p.btc_position.quantity then p.btc_position.quantity else qty) := by
        rw [if_pos hover]; exact hz
      obtain ⟨hqe, -⟩ := key hgt
      rw [if_pos hover] at hqe
      simpa using hqe
  · intro hgt hleft
    obtain ⟨hqe, hae⟩ := key hgt
    have hno : ¬ p.btc_position.quantity +
        -(if qty > p.btc_position.quantity then p.btc_position.quantity else qty) ≤ 0 := by
      rw [← sub_eq_add_neg]
      linarith
    rw [if_neg hno] at hqe hae
    rw [← sub_eq_add_neg] at hqe
    exact ⟨hae, hqe⟩
  · intro hgt hleft
    obtain ⟨hqe, hae⟩ := key hgt
    have hyes : p.btc_position.quantity +
        -(if qty > p.btc_position.quantity then p.btc_position.quantity else qty) ≤ 0 := by
      rw [← sub_eq_add_neg]
      linarith
    rw [if_pos hyes] at hqe hae
    exact ⟨hqe, hae⟩

/-- C3 witness: on a portfolio holding 2 BTC, selling 5 BTC clamps to the
full holding and ends with quantity 0, and a partial sale of 1 BTC keeps
the average cost 50 unchanged. -/
theorem sell_clamps_and_resets_witness :
    (5 : ℚ) > wPortfolio2.btc_position.quantity ∧
    (wPortfolio2.sell "d" 100 5 "r").1.btc_position.quantity = 0 ∧
    ((wPortfolio2.sell "d" 100 1 "r").1.btc_position.avg_cost =
       wPortfolio2.btc_position.avg_cost ∧
     (wPortfolio2.sell "d" 100 1 "r").1.btc_position.quantity =
       wPortfolio2.btc_position.quantity -
         (if (1 : ℚ) > wPortfolio2.btc_position.quantity
          then wPortfolio2.btc_position.quantity else 1)) :=
  ⟨by norm_num [wPortfolio2, Portfolio.init],
   (sell_clamps_and_resets wPortfolio2 "d" 100 5 "r"
      (by norm_num [wPortfolio2, Portfolio.init])).1
     (by norm_num [wPortfolio2, Portfolio.init]),
   (sell_clamps_and_resets wPortfolio2 "d" 100 1 "r"
      (by norm_num [wPortfolio2, Portfolio.init])).2.1
     (by norm_num [wPortfolio2, Portfolio.init])
     (by norm_num [wPortfolio2, Portfolio.init])⟩

/-- One buy/sell/hold call with a positive price preserves non-negative
cash and non-negative held quantity. -/
theorem applyOp_preserves (p : Portfolio) (op : POp) (hp : 0 < op.price)
    (hb : 0 ≤ p.usd_balance) (hq : 0 ≤ p.btc_position.quantity) :
    0 ≤ (applyOp p op).usd_balance ∧ 0 ≤ (applyOp p op).btc_position.quantity := by
  cases op with
  | buy price amt date reason =>
      simp only [POp.price] at hp
      simp only [applyOp]
      by_cases h : (if amt > p.usd_balance then p.usd_balance else amt) ≤ 0
      · rw [(buy_components p date price amt reason).1 h]
        exact ⟨hb, hq⟩
      · obtain ⟨-, hbal, hposn, -, -, -⟩ := (buy_components p date price amt reason).2 h
        push_neg at h
        have hd : 0 < (if amt > p.usd_balance then p.usd_balance else amt) / price :=
          div_pos h hp
        obtain ⟨hqe, -, -⟩ := update_pos_delta p.btc_position _ price hd
        rw [← hposn] at hqe
        constructor
        · rw [hbal]
          by_cases hgt : amt > p.usd_balance
          · rw [if_pos hgt]
            linarith
          · rw [if_neg hgt]
            push_neg at hgt
            linarith
        · rw [hqe]
          linarith
  | sell price qty date reason =>
      simp only [POp.price] at hp
      simp only [applyOp]
      by_cases h : (if qty > p.btc_position.quantity then p.btc_position.quantity else qty) ≤ 0
      · rw [(sell_components p date price qty reason).1 h]
        exact ⟨hb, hq⟩
      · obtain ⟨-, hbal, hposn, -, -, -⟩ := (sell_components p date price qty reason).2 h
        push_neg at h
        have hd : ¬ 0 <
            -(if qty > p.btc_position.quantity then p.btc_position.quantity else qty) := by
          linarith
        obtain ⟨hqe, -, -⟩ := update_nonpos_delta p.btc_position _ price hd
        rw [← hposn] at hqe
        constructor
        · rw [hbal]
          have := mul_pos h hp
          linarith
        · have hcle : (if qty > p.btc_position.quantity then p.btc_position.quantity else qty) ≤
              p.btc_position.quantity := by
            by_cases hgt : qty > p.btc_position.quantity
            · rw [if_pos hgt]
            · rw [if_neg hgt]
              exact le_of_not_lt hgt
          rw [hqe]
          by_cases hz : p.btc_position.quantity +
              -(if qty > p.btc_position.quantity then p.btc_position.quantity else qty) ≤ 0
          · rw [if_pos hz]
          · rw [if_neg hz]
            push_neg at hz
            linarith
  | hold price date reason =>
      simp only [applyOp]
      rw [(hold_state p date price reason).1, (hold_state p date price reason).2.1]
      exact ⟨hb, hq⟩

/-- Running any list of positively-priced operations preserves the two
invariants. -/
theorem runOps_preserves (ops : List POp) :
    ∀ p : Portfolio, (∀ op ∈ ops, 0 < op.price) →
    0 ≤ p.usd_balance → 0 ≤ p.btc_position.quantity →
    0 ≤ (runOps p ops).usd_balance ∧ 0 ≤ (runOps p ops).btc_position.quantity := by
  induction ops with
  | nil => exact fun p _ hb hq => ⟨hb, hq⟩
  | cons o rest ih =>
      intro p hprices hb hq
      have h0 := applyOp_preserves p o (hprices o (by simp)) hb hq
      exact ih (applyOp p o) (fun op hm => hprices op (by simp [hm])) h0.1 h0.2

/-- C4.  Starting from any portfolio with non-negative cash and quantity,
after every step of any finite buy/sell/hold sequence whose prices are
positive, cash_balance ≥ 0 and position.quantity ≥ 0 still hold (stated
for every decomposition of the sequence into a done part and a rest). -/
theorem portfolio_invariants_every_step (p : Portfolio) (ops pre suf : List POp)
    (hsplit : ops = pre ++ suf) (hprices : ∀ op ∈ ops, 0 < op.price)
    (hb : 0 ≤ p.usd_balance) (hq : 0 ≤ p.btc_position.quantity) :
    0 ≤ (runOps p pre).usd_balance ∧ 0 ≤ (runOps p pre).btc_position.quantity :=
  runOps_preserves pre p
    (fun op hm => hprices op (by rw [hsplit]; exact List.mem_append_left suf hm)) hb hq

/-- C4 witness: an over-budget buy followed by an over-held sell, checked
after the second step of the three-step sequence. -/
theorem portfolio_invariants_every_step_witness :
    (∀ op ∈ [POp.buy 100 2000 "d1" "r", POp.sell 100 5 "d2" "r", POp.hold 100 "d3" "r"],
       0 < op.price) ∧
    (0 ≤ (runOps (Portfolio.init "x" 1000)
            [POp.buy 100 2000 "d1" "r", POp.sell 100 5 "d2" "r"]).usd_balance ∧
     0 ≤ (runOps (Portfolio.init "x" 1000)
            [POp.buy 100 2000 "d1" "r", POp.sell 100 5 "d2" "r"]).btc_position.quantity) :=
  ⟨by intro op hm
      fin_cases hm <;> norm_num [POp.price],
   portfolio_invariants_every_step (Portfolio.init "x" 1000)
     [POp.buy 100 2000 "d1" "r", POp.sell 100 5 "d2" "r", POp.hold 100 "d3" "r"]
     [POp.buy 100 2000 "d1" "r", POp.sell 100 5 "d2" "r"] [POp.hold 100 "d3" "r"]
     rfl
     (by intro op hm
         fin_cases hm <;> norm_num [POp.price])
     (by norm_num [Portfolio.init]) (by norm_num [Portfolio.init])⟩

/-- C8.  Every persona's rule-based decision function make_decision_sync
(Quant, Degen, Guardian and Strategist — the four personas
create_all_personas activates) is a pure, deterministic function of the
context alone: each output depends only on the fields the persona reads —
Quant on rsi, macd_signal, bb_position, ma_50, btc_price, usd_balance,
btc_quantity; Degen on fear_greed_value, btc_change_pct, news_headlines,
usd_balance, portfolio_value; Guardian on fear_greed_value, ma_200,
btc_price, usd_balance, btc_quantity, return_pct; Strategist on
news_headlines, ma_200, btc_price, usd_balance, btc_quantity,
fear_greed_value — so two calls agreeing on those fields produce
byte-identical output strings (with equal contexts as the special case,
so identical MarketContext input always yields identical output). -/
theorem rule_decisions_deterministic_and_field_scoped (c1 c2 : MarketContext) :
    (c1.rsi = c2.rsi → c1.macd_signal = c2.macd_signal →
     c1.bb_position = c2.bb_position → c1.ma_50 = c2.ma_50 →
     c1.btc_price = c2.btc_price → c1.usd_balance = c2.usd_balance →
     c1.btc_quantity = c2.btc_quantity →
     Quant.make_decision_sync c1 = Quant.make_decision_sync c2) ∧
    (c1.fear_greed_value = c2.fear_greed_value →
     c1.btc_change_pct = c2.btc_change_pct →
     c1.news_headlines = c2.news_headlines →
     c1.usd_balance = c2.usd_balance →
     c1.portfolio_value = c2.portfolio_value →
     Degen.make_decision_sync c1 = Degen.make_decision_sync c2) ∧
    (c1.fear_greed_value = c2.fear_greed_value → c1.ma_200 = c2.ma_200 →
     c1.btc_price = c2.btc_price → c1.usd_balance = c2.usd_balance →
     c1.btc_quantity = c2.btc_quantity → c1.return_pct = c2.return_pct →
     Guardian.make_decision_sync c1 = Guardian.make_decision_sync c2) ∧
    (c1.news_headlines = c2.news_headlines → c1.ma_200 = c2.ma_200 →
     c1.btc_price = c2.btc_price → c1.usd_balance = c2.usd_balance →
     c1.btc_quantity = c2.btc_quantity →
     c1.fear_greed_value = c2.fear_greed_value →
     Strategist.make_decision_sync c1 = Strategist.make_decision_sync c2) := by
  refine ⟨?_, ?_, ?_, ?_⟩
  · intro h1 h2 h3 h4 h5 h6 h7
    simp only [Quant.make_decision_sync, h1, h2, h3, h4, h5, h6, h7]
  · intro h1 h2 h3 h4 h5
    simp only [Degen.make_decision_sync, h1, h2, h3, h4, h5]
  · intro h1 h2 h3 h4 h5 h6
    simp only [Guardian.make_decision_sync, h1, h2, h3, h4, h5, h6]
  · intro h1 h2 h3 h4 h5 h6
    simp only [Strategist.make_decision_sync, h1, h2, h3, h4, h5, h6]

/-- C8 witness: all four noninterference conjuncts instantiated with the
same concrete context on both sides. -/
theorem rule_decisions_deterministic_witness :
    Quant.make_decision_sync wCtx = Quant.make_decision_sync wCtx ∧
    Degen.make_decision_sync wCtx = Degen.make_decision_sync wCtx ∧
    Guardian.make_decision_sync wCtx = Guardian.make_decision_sync wCtx ∧
    Strategist.make_decision_sync wCtx = Strategist.make_decision_sync wCtx :=
  ⟨(rule_decisions_deterministic_and_field_scoped wCtx wCtx).1
     rfl rfl rfl rfl rfl rfl rfl,
   (rule_decisions_deterministic_and_field_scoped wCtx wCtx).2.1
     rfl rfl rfl rfl rfl,
   (rule_decisions_deterministic_and_field_scoped wCtx wCtx).2.2.1
     rfl rfl rfl rfl rfl rfl,
   (rule_decisions_deterministic_and_field_scoped wCtx wCtx).2.2.2
     rfl rfl rfl rfl rfl rfl⟩

/-- Any trade record added by Portfolio.buy carries the call's date, and
snapshots are untouched. -/
theorem buy_record_dates (p : Portfolio) (date : String) (price amt : ℚ) (reason : String) :
    (∀ t ∈ (p.buy date price amt reason).1.trades, t ∈ p.trades ∨ t.date = date) ∧
    (p.buy date price amt reason).1.snapshots = p.snapshots := by
  by_cases h : (if amt > p.usd_balance then p.usd_balance else amt) ≤ 0
  · rw [(buy_components p date price amt reason).1 h]
    exact ⟨fun t ht => Or.inl ht, rfl⟩
  · obtain ⟨-, -, -, hsnap, -, htr⟩ := (buy_components p date price amt reason).2 h
    refine ⟨fun t ht => ?_, hsnap⟩
    rw [htr] at ht
    rcases List.mem_append.mp ht with hmem | hmem
    · exact Or.inl hmem
    · right
      rw [List.mem_singleton.mp hmem]

/-- Any trade record added by Portfolio.sell carries the call's date, and
snapshots are untouched. -/
theorem sell_record_dates (p : Portfolio) (date : String) (price qty : ℚ) (reason : String) :
    (∀ t ∈ (p.sell date price qty reason).1.trades, t ∈ p.trades ∨ t.date = date) ∧
    (p.sell date price qty reason).1.snapshots = p.snapshots := by
  by_cases h : (if qty > p.btc_position.quantity then p.btc_position.quantity else qty) ≤ 0
  · rw [(sell_components p date price qty reason).1 h]
    exact ⟨fun t ht => Or.inl ht, rfl⟩
  · obtain ⟨-, -, -, hsnap, -, t0, htr, -, hdate⟩ :=
      (sell_components p date price qty reason).2 h
    refine ⟨fun t ht => ?_, hsnap⟩
    rw [htr] at ht
    rcases List.mem_append.mp ht with hmem | hmem
    · exact Or.inl hmem
    · right
      rw [List.mem_singleton.mp hmem]
      exact hdate

/-- Any trade record added by TradeExecutor.execute carries the call's
date, and snapshots are untouched. -/
theorem execute_record_dates (decision : TradeDecision) (p : Portfolio)
    (date : String) (btc_price : ℚ) :
    (∀ t ∈ (TradeExecutor.execute decision p date btc_price).1.trades,
       t ∈ p.trades ∨ t.date = date) ∧
    (TradeExecutor.execute decision p date btc_price).1.snapshots = p.snapshots := by
  have hhold : ∀ reason : String,
      (∀ t ∈ (p.hold date btc_price reason).trades, t ∈ p.trades ∨ t.date = date) ∧
      (p.hold date btc_price reason).snapshots = p.snapshots := by
    intro reason
    refine ⟨fun t ht => ?_, (hold_state p date btc_price reason).2.2.1⟩
    rw [(hold_state p date btc_price reason).2.2.2] at ht
    rcases List.mem_append.mp ht with hmem | hmem
    · exact Or.inl hmem
    · right
      rw [List.mem_singleton.mp hmem]
  cases ha : decision.action with
  | HOLD =>
      simp only [TradeExecutor.execute, ha]
      exact hhold decision.reason
  | BUY =>
      simp only [TradeExecutor.execute, ha]
      split
      · exact hhold _
      · exact buy_record_dates p date btc_price _ decision.reason
  | SELL =>
      simp only [TradeExecutor.execute, ha]
      split
      · exact hhold _
      · exact sell_record_dates p date btc_price _ decision.reason

/-- take_snapshot leaves trades unchanged and adds one snapshot carrying
the call's date. -/
theorem take_snapshot_record_dates (p : Portfolio) (date : String) (btc_price : ℚ) :
    (p.take_snapshot date btc_price).trades = p.trades ∧
    (∀ s ∈ (p.take_snapshot date btc_price).snapshots, s ∈ p.snapshots ∨ s.date = date) := by
  refine ⟨rfl, fun s hs => ?_⟩
  simp only [Portfolio.take_snapshot] at hs
  rcases List.mem_append.mp hs with hmem | hmem
  · exact Or.inl hmem
  · right
    rw [List.mem_singleton.mp hmem]

/-- The execute-then-snapshot step of one persona-day keeps a portfolio
free of records dated differently from the step's own date. -/
theorem step_preserves_norecords (decision : TradeDecision) (p : Portfolio)
    (ds : String) (btc_price : ℚ) (dsm : String) (hne : ds ≠ dsm)
    (hp : NoRecordsDated dsm p) :
    NoRecordsDated dsm
      (((TradeExecutor.execute decision p ds btc_price).1).take_snapshot ds btc_price) := by
  obtain ⟨htr, hsn⟩ := execute_record_dates decision p ds btc_price
  obtain ⟨htr2, hsn2⟩ :=
    take_snapshot_record_dates (TradeExecutor.execute decision p ds btc_price).1 ds btc_price
  constructor
  · intro t ht
    rw [htr2] at ht
    rcases htr t ht with hmem | hdate
    · exact hp.1 t hmem
    · rw [hdate]
      exact hne
  · intro s hs
    rcases hsn2 s hs with hmem | hdate
    · rw [hsn] at hmem
      exact hp.2 s hmem
    · rw [hdate]
      exact hne

/-- The rule-only per-persona loop succeeds whenever parsing never raises,
keeps each persona identity in place, and keeps every portfolio free of
foreign-dated records. -/
theorem runPersonasSync_spec (env : SimEnv) (d : ℕ) (bar : Bar) (btc_price : ℚ)
    (hparse : ∀ s, ∃ dec, parse_decision s (env.loads s) = Except.ok dec) :
    ∀ agents : List Agent,
    ∃ (agents' : List Agent) (decs : List (String × TradeDecision))
      (vals : List (String × ℚ)),
      runPersonasSync env d bar btc_price agents = .ok (agents', decs, vals) ∧
      agents'.map (fun a => a.persona) = agents.map (fun a => a.persona) ∧
      ∀ dsm : String, env.dateStr d ≠ dsm →
        (∀ a ∈ agents, NoRecordsDated dsm a.portfolio) →
        ∀ a ∈ agents', NoRecordsDated dsm a.portfolio := by
  intro agents
  induction agents with
  | nil =>
      exact ⟨[], [], [], rfl, rfl, fun dsm hne h a ha => absurd ha (List.not_mem_nil a)⟩
  | cons a rest ih =>
      obtain ⟨agents', decs, vals, hrun, hpers, hpres⟩ := ih
      obtain ⟨dec, hdec⟩ :=
        hparse (a.persona.decide_rule (build_context_for_persona env a.persona a.portfolio d bar))
      refine ⟨{ persona := a.persona
                portfolio := ((TradeExecutor.execute dec a.portfolio (env.dateStr d)
                  btc_price).1).take_snapshot (env.dateStr d) btc_price } :: agents',
              (a.persona.pid, dec) :: decs,
              (a.persona.pid,
               (((TradeExecutor.execute dec a.portfolio (env.dateStr d)
                  btc_price).1).take_snapshot (env.dateStr d)
                  btc_price).get_total_value btc_price) :: vals, ?_, ?_, ?_⟩
      · simp only [runPersonasSync]
        rw [hdec, hrun]
      · simp only [List.map_cons, hpers]
      · intro dsm hne hall a' ha'
        rcases List.mem_cons.mp ha' with rfl | hmem
        · exact step_preserves_norecords dec a.portfolio (env.dateStr d) btc_price dsm hne
            (hall a (List.mem_cons_self a rest))
        · exact hpres dsm hne (fun x hx => hall x (List.mem_cons_of_mem a hx)) a' hmem

/-- The AI-mode per-persona loop succeeds whenever parsing never raises
(whatever each AI call returns), keeps each persona identity in place,
and keeps every portfolio free of foreign-dated records. -/
theorem runPersonasAI_spec (env : SimEnv) (d : ℕ) (bar : Bar) (btc_price : ℚ)
    (hparse : ∀ s, ∃ dec, parse_decision s (env.loads s) = Except.ok dec) :
    ∀ (agents : List Agent) (stats : Stats),
    ∃ (agents' : List Agent) (stats' : Stats)
      (decs : List (String × TradeDecision)) (vals : List (String × ℚ)),
      runPersonasAI env d bar btc_price agents stats = .ok (agents', stats', decs, vals) ∧
      agents'.map (fun a => a.persona) = agents.map (fun a => a.persona) ∧
      ∀ dsm : String, env.dateStr d ≠ dsm →
        (∀ a ∈ agents, NoRecordsDated dsm a.portfolio) →
        ∀ a ∈ agents', NoRecordsDated dsm a.portfolio := by
  intro agents
  induction agents with
  | nil =>
      exact fun stats =>
        ⟨[], stats, [], [], rfl, rfl, fun dsm hne h a ha => absurd ha (List.not_mem_nil a)⟩
  | cons a rest ih =>
      intro stats
      obtain ⟨dec, hdec⟩ :=
        hparse (get_decision_from_main_agent a.persona
          (build_context_for_persona env a.persona a.portfolio d bar) stats).1
      obtain ⟨agents', stats', decs, vals, hrun, hpers, hpres⟩ :=
        ih (get_decision_from_main_agent a.persona
          (build_context_for_persona env a.persona a.portfolio d bar) stats).2
      refine ⟨{ persona := a.persona
                portfolio := ((TradeExecutor.execute dec a.portfolio (env.dateStr d)
                  btc_price).1).take_snapshot (env.dateStr d) btc_price } :: agents',
              stats',
              (a.persona.pid, dec) :: decs,
              (a.persona.pid,
               (((TradeExecutor.execute dec a.portfolio (env.dateStr d)
                  btc_price).1).take_snapshot (env.dateStr d)
                  btc_price).get_total_value btc_price) :: vals, ?_, ?_, ?_⟩
      · simp only [runPersonasAI]
        rw [hdec, hrun]
      · simp only [List.map_cons, hpers]
      · intro dsm hne hall a' ha'
        rcases List.mem_cons.mp ha' with rfl | hmem
        · exact step_preserves_norecords dec a.portfolio (env.dateStr d) btc_price dsm hne
            (hall a (List.mem_cons_self a rest))
        · exact hpres dsm hne (fun x hx => hall x (List.mem_cons_of_mem a hx)) a' hmem

/-- A rule-only day with price data appends exactly one DailyResult dated
with that day, keeps personas and statistics, and keeps portfolios free
of foreign-dated records. -/
theorem simDaySync_spec (env : SimEnv) (d : ℕ) (bar : Bar) (st : SimState)
    (hparse : ∀ s, ∃ dec, parse_decision s (env.loads s) = Except.ok dec) :
    ∃ st', simDaySync env d bar st = .ok st' ∧
      st'.daily_results.map (fun r => r.date) =
        st.daily_results.map (fun r => r.date) ++ [d] ∧
      st'.agents.map (fun a => a.persona) = st.agents.map (fun a => a.persona) ∧
      st'.stats = st.stats ∧
      ∀ dsm : String, env.dateStr d ≠ dsm →
        (∀ a ∈ st.agents, NoRecordsDated dsm a.portfolio) →
        ∀ a ∈ st'.agents, NoRecordsDated dsm a.portfolio := by
  obtain ⟨agents', decs, vals, hrun, hpers, hpres⟩ :=
    runPersonasSync_spec env d bar bar.closeP hparse st.agents
  refine ⟨{ agents := agents'
            stats := st.stats
            btc_prices := st.btc_prices ++ [(d, bar.closeP)]
            daily_results := st.daily_results ++
              [{ date := d, btc_price := bar.closeP
                 btc_change_pct :=
                   if bar.openP > 0 then (bar.closeP - bar.openP) / bar.openP * 100 else 0
                 decisions := decs, portfolio_values := vals, debate_file := none }] },
         ?_, ?_, hpers, rfl, hpres⟩
  · simp only [simDaySync]
    rw [hrun]
  · simp

/-- An AI-mode day with price data appends exactly one DailyResult dated
with that day, keeps personas, and keeps portfolios free of foreign-dated
records (no constraint on the statistics here). -/
theorem simDayAI_spec (env : SimEnv) (d : ℕ) (bar : Bar) (st : SimState)
    (hparse : ∀ s, ∃ dec, parse_decision s (env.loads s) = Except.ok dec) :
    ∃ st', simDayAI env d bar st = .ok st' ∧
      st'.daily_results.map (fun r => r.date) =
        st.daily_results.map (fun r => r.date) ++ [d] ∧
      st'.agents.map (fun a => a.persona) = st.agents.map (fun a => a.persona) ∧
      ∀ dsm : String, env.dateStr d ≠ dsm →
        (∀ a ∈ st.agents, NoRecordsDated dsm a.portfolio) →
        ∀ a ∈ st'.agents, NoRecordsDated dsm a.portfolio := by
  obtain ⟨agents', stats', decs, vals, hrun, hpers, hpres⟩ :=
    runPersonasAI_spec env d bar bar.closeP hparse st.agents st.stats
  refine ⟨{ agents := agents'
            stats := stats'
            btc_prices := st.btc_prices ++ [(d, bar.closeP)]
            daily_results := st.daily_results ++
              [{ date := d, btc_price := bar.closeP
                 btc_change_pct :=
                   if bar.openP > 0 then (bar.closeP - bar.openP) / bar.openP * 100 else 0
                 decisions := decs, portfolio_values := vals, debate_file := none }] },
         ?_, ?_, hpers, hpres⟩
  · simp only [simDayAI]
    rw [hrun]
  · simp

/-- The rule-only date loop: it never fails when parsing never raises,
the result dates are exactly the in-range dates that have price data (in
order), personas persist, and no portfolio ever acquires a record dated
with a date the loop never processed. -/
theorem runSimDaysSync_spec (env : SimEnv)
    (hparse : ∀ s, ∃ dec, parse_decision s (env.loads s) = Except.ok dec) :
    ∀ (days : List ℕ) (st : SimState),
    ∃ st', runSimDaysSync env days st = .ok st' ∧
      st'.daily_results.map (fun r => r.date) =
        st.daily_results.map (fun r => r.date) ++
          days.filter (fun d => (env.priceData d).isSome) ∧
      st'.agents.map (fun a => a.persona) = st.agents.map (fun a => a.persona) ∧
      ∀ dsm : String,
        (∀ d ∈ days, (env.priceData d).isSome → env.dateStr d ≠ dsm) →
        (∀ a ∈ st.agents, NoRecordsDated dsm a.portfolio) →
        ∀ a ∈ st'.agents, NoRecordsDated dsm a.portfolio := by
  intro days
  induction days with
  | nil => exact fun st => ⟨st, rfl, by simp, rfl, fun dsm _ hall => hall⟩
  | cons d rest ih =>
      intro st
      cases hpd : env.priceData d with
      | none =>
          obtain ⟨st', hrun, hmap, hpers, hpres⟩ := ih st
          refine ⟨st', ?_, ?_, hpers, ?_⟩
          · simp only [runSimDaysSync]
            rw [hpd]
            exact hrun
          · rw [hmap, List.filter_cons_of_neg]
            simp [hpd]
          · intro dsm hd hall
            exact hpres dsm (fun x hx hs => hd x (List.mem_cons_of_mem d hx) hs) hall
      | some bar =>
          obtain ⟨st1, hday, hmap1, hpers1, -, hpres1⟩ := simDaySync_spec env d bar st hparse
          obtain ⟨st', hrun, hmap, hpers, hpres⟩ := ih st1
          refine ⟨st', ?_, ?_, ?_, ?_⟩
          · simp only [runSimDaysSync, hpd, hday]
            exact hrun
          · rw [hmap, hmap1, List.filter_cons_of_pos]
            · simp
            · simp [hpd]
          · rw [hpers, hpers1]
          · intro dsm hd hall
            refine hpres dsm (fun x hx hs => hd x (List.mem_cons_of_mem d hx) hs) ?_
            exact hpres1 dsm (hd d (List.mem_cons_self d rest) (by simp [hpd])) hall

/-- The AI-mode date loop, same shape as the rule-only one. -/
theorem runSimDaysAI_spec (env : SimEnv)
    (hparse : ∀ s, ∃ dec, parse_decision s (env.loads s) = Except.ok dec) :
    ∀ (days : List ℕ) (st : SimState),
    ∃ st', runSimDaysAI env days st = .ok st' ∧
      st'.daily_results.map (fun r => r.date) =
        st.daily_results.map (fun r => r.date) ++
          days.filter (fun d => (env.priceData d).isSome) ∧
      st'.agents.map (fun a => a.persona) = st.agents.map (fun a => a.persona) ∧
      ∀ dsm : String,
        (∀ d ∈ days, (env.priceData d).isSome → env.dateStr d ≠ dsm) →
        (∀ a ∈ st.agents, NoRecordsDated dsm a.portfolio) →
        ∀ a ∈ st'.agents, NoRecordsDated dsm a.portfolio := by
  intro days
  induction days with
  | nil => exact fun st => ⟨st, rfl, by simp, rfl, fun dsm _ hall => hall⟩
  | cons d rest ih =>
      intro st
      cases hpd : env.priceData d with
      | none =>
          obtain ⟨st', hrun, hmap, hpers, hpres⟩ := ih st
          refine ⟨st', ?_, ?_, hpers, ?_⟩
          · simp only [runSimDaysAI]
            rw [hpd]
            exact hrun
          · rw [hmap, List.filter_cons_of_neg]
            simp [hpd]
          · intro dsm hd hall
            exact hpres dsm (fun x hx hs => hd x (List.mem_cons_of_mem d hx) hs) hall
      | some bar =>
          obtain ⟨st1, hday, hmap1, hpers1, hpres1⟩ := simDayAI_spec env d bar st hparse
          obtain ⟨st', hrun, hmap, hpers, hpres⟩ := ih st1
          refine ⟨st', ?_, ?_, ?_, ?_⟩
          · simp only [runSimDaysAI, hpd, hday]
            exact hrun
          · rw [hmap, hmap1, List.filter_cons_of_pos]
            · simp
            · simp [hpd]
          · rw [hpers, hpers1]
          · intro dsm hd hall
            refine hpres dsm (fun x hx hs => hd x (List.mem_cons_of_mem d hx) hs) ?_
            exact hpres1 dsm (hd d (List.mem_cons_self d rest) (by simp [hpd])) hall

/-- A timed-out AI call degrades, inside _get_decision_from_main_agent,
to the persona's rule decision, bumping timeout_fallbacks and
rule_decisions and leaving ai_decisions and error_fallbacks alone. -/
theorem get_decision_timeout (p : SimPersona) (ctx : MarketContext) (stats : Stats)
    (h : p.ai ctx = AgentOutcome.timeout) :
    get_decision_from_main_agent p ctx stats =
      (p.decide_rule ctx,
       { ai_decisions := stats.ai_decisions
         rule_decisions := stats.rule_decisions + 1
         timeout_fallbacks := stats.timeout_fallbacks + 1
         error_fallbacks := stats.error_fallbacks }) := by
  simp only [get_decision_from_main_agent, h]

/-- In a day where every AI call times out, the per-persona loop counts
one rule decision and one timeout fallback per persona and touches no
other counter. -/
theorem runPersonasAI_timeout (env : SimEnv) (d : ℕ) (bar : Bar) (btc_price : ℚ)
    (hparse : ∀ s, ∃ dec, parse_decision s (env.loads s) = Except.ok dec) :
    ∀ (agents : List Agent) (stats : Stats),
      (∀ a ∈ agents, ∀ ctx, a.persona.ai ctx = AgentOutcome.timeout) →
      ∃ (agents' : List Agent) (stats' : Stats)
        (decs : List (String × TradeDecision)) (vals : List (String × ℚ)),
        runPersonasAI env d bar btc_price agents stats = .ok (agents', stats', decs, vals) ∧
        stats'.ai_decisions = stats.ai_decisions ∧
        stats'.error_fallbacks = stats.error_fallbacks ∧
        stats'.rule_decisions = stats.rule_decisions + agents.length ∧
        stats'.timeout_fallbacks = stats.timeout_fallbacks + agents.length ∧
        agents'.map (fun a => a.persona) = agents.map (fun a => a.persona) := by
  intro agents
  induction agents with
  | nil =>
      exact fun stats _ => ⟨[], stats, [], [], rfl, rfl, rfl, by simp, by simp, rfl⟩
  | cons a rest ih =>
      intro stats hto
      have hcall := get_decision_timeout a.persona
        (build_context_for_persona env a.persona a.portfolio d bar) stats
        (hto a (List.mem_cons_self a rest) _)
      obtain ⟨dec, hdec⟩ := hparse
        (a.persona.decide_rule (build_context_for_persona env a.persona a.portfolio d bar))
      obtain ⟨agents', stats', decs, vals, hrun, hai, herr, hrule, htmo, hmap⟩ :=
        ih { ai_decisions := stats.ai_decisions
             rule_decisions := stats.rule_decisions + 1
             timeout_fallbacks := stats.timeout_fallbacks + 1
             error_fallbacks := stats.error_fallbacks }
          (fun x hx => hto x (List.mem_cons_of_mem a hx))
      have hrule' : stats'.rule_decisions = stats.rule_decisions + 1 + rest.length := hrule
      have htmo' : stats'.timeout_fallbacks = stats.timeout_fallbacks + 1 + rest.length := htmo
      have hai' : stats'.ai_decisions = stats.ai_decisions := hai
      have herr' : stats'.error_fallbacks = stats.error_fallbacks := herr
      refine ⟨{ persona := a.persona
                portfolio := ((TradeExecutor.execute dec a.portfolio (env.dateStr d)
                  btc_price).1).take_snapshot (env.dateStr d) btc_price } :: agents',
              stats',
              (a.persona.pid, dec) :: decs,
              (a.persona.pid,
               (((TradeExecutor.execute dec a.portfolio (env.dateStr d)
                  btc_price).1).take_snapshot (env.dateStr d)
                  btc_price).get_total_value btc_price) :: vals,
              ?_, hai', herr', ?_, ?_, ?_⟩
      · simp only [runPersonasAI, hcall]
        rw [hdec, hrun]
      · rw [hrule', List.length_cons]
        omega
      · rw [htmo', List.length_cons]
        omega
      · simp only [List.map_cons, hmap]

/-- Transport an every-call-times-out hypothesis along an equality of the
persona lists. -/
theorem personas_timeout_transfer (l1 l2 : List Agent)
    (hmap : l1.map (fun a => a.persona) = l2.map (fun a => a.persona))
    (h : ∀ a ∈ l2, ∀ ctx, a.persona.ai ctx = AgentOutcome.timeout) :
    ∀ a ∈ l1, ∀ ctx, a.persona.ai ctx = AgentOutcome.timeout := by
  intro a ha ctx
  have hm : a.persona ∈ l1.map (fun a => a.persona) := List.mem_map_of_mem _ ha
  rw [hmap] at hm
  obtain ⟨b, hb, hbe⟩ := List.mem_map.mp hm
  rw [← hbe]
  exact h b hb ctx

/-- A day with every AI call timing out adds one rule decision and one
timeout fallback per persona and preserves the persona list. -/
theorem simDayAI_timeout (env : SimEnv) (d : ℕ) (bar : Bar) (st : SimState)
    (hparse : ∀ s, ∃ dec, parse_decision s (env.loads s) = Except.ok dec)
    (hto : ∀ a ∈ st.agents, ∀ ctx, a.persona.ai ctx = AgentOutcome.timeout) :
    ∃ st', simDayAI env d bar st = .ok st' ∧
      st'.stats.ai_decisions = st.stats.ai_decisions ∧
      st'.stats.error_fallbacks = st.stats.error_fallbacks ∧
      st'.stats.rule_decisions = st.stats.rule_decisions + st.agents.length ∧
      st'.stats.timeout_fallbacks = st.stats.timeout_fallbacks + st.agents.length ∧
      st'.agents.map (fun a => a.persona) = st.agents.map (fun a => a.persona) := by
  obtain ⟨agents', stats', decs, vals, hrun, hai, herr, hrule, htmo, hmap⟩ :=
    runPersonasAI_timeout env d bar bar.closeP hparse st.agents st.stats hto
  refine ⟨{ agents := agents'
            stats := stats'
            btc_prices := st.btc_prices ++ [(d, bar.closeP)]
            daily_results := st.daily_results ++
              [{ date := d, btc_price := bar.closeP
                 btc_change_pct :=
                   if bar.openP > 0 then (bar.closeP - bar.openP) / bar.openP * 100 else 0
                 decisions := decs, portfolio_values := vals, debate_file := none }] },
         ?_, hai, herr, hrule, htmo, hmap⟩
  simp only [simDayAI]
  rw [hrun]

/-- Over a whole date range with every AI call timing out, rule decisions
and timeout fallbacks grow by exactly one per persona per processed day
and ai_decisions / error_fallbacks stay put. -/
theorem runSimDaysAI_timeout (env : SimEnv)
    (hparse : ∀ s, ∃ dec, parse_decision s (env.loads s) = Except.ok dec) :
    ∀ (days : List ℕ) (st : SimState),
      (∀ a ∈ st.agents, ∀ ctx, a.persona.ai ctx = AgentOutcome.timeout) →
      ∃ st', runSimDaysAI env days st = .ok st' ∧
        st'.stats.ai_decisions = st.stats.ai_decisions ∧
        st'.stats.error_fallbacks = st.stats.error_fallbacks ∧
        st'.stats.rule_decisions = st.stats.rule_decisions +
          (days.filter (fun d => (env.priceData d).isSome)).length * st.agents.length ∧
        st'.stats.timeout_fallbacks = st.stats.timeout_fallbacks +
          (days.filter (fun d => (env.priceData d).isSome)).length * st.agents.length ∧
        st'.agents.map (fun a => a.persona) = st.agents.map (fun a => a.persona) := by
  intro days
  induction days with
  | nil => exact fun st _ => ⟨st, rfl, rfl, rfl, by simp, by simp, rfl⟩
  | cons d rest ih =>
      intro st hto
      cases hpd : env.priceData d with
      | none =>
          obtain ⟨st', hrun, h1, h2, h3, h4, h5⟩ := ih st hto
          refine ⟨st', ?_, h1, h2, ?_, ?_, h5⟩
          · simp only [runSimDaysAI, hpd]
            exact hrun
          · rw [h3, List.filter_cons_of_neg]
            simp [hpd]
          · rw [h4, List.filter_cons_of_neg]
            simp [hpd]
      | some bar =>
          obtain ⟨st1, hday, g1, g2, g3, g4, g5⟩ := simDayAI_timeout env d bar st hparse hto
          have hto1 := personas_timeout_transfer st1.agents st.agents g5 hto
          obtain ⟨st', hrun, h1, h2, h3, h4, h5⟩ := ih st1 hto1
          have hlen : st1.agents.length = st.agents.length := by
            have hl := congrArg List.length g5
            simpa using hl
          refine ⟨st', ?_, ?_, ?_, ?_, ?_, ?_⟩
          · simp only [runSimDaysAI, hpd, hday]
            exact hrun
          · rw [h1, g1]
          · rw [h2, g2]
          · rw [List.filter_cons_of_pos]
            · rw [h3, hlen, g3, List.length_cons]
              ring
            · simp [hpd]
          · rw [List.filter_cons_of_pos]
            · rw [h4, hlen, g4, List.length_cons]
              ring
            · simp [hpd]
          · rw [h5, g5]

/-- A list with exactly one element failing the predicate filters to one
element fewer. -/
theorem filter_length_single_gap (l : List ℕ) (p : ℕ → Bool) (m : ℕ)
    (hnd : l.Nodup) (hm : m ∈ l) (hf : p m = false)
    (ht : ∀ d ∈ l, d ≠ m → p d = true) :
    (l.filter p).length = l.length - 1 := by
  induction l with
  | nil => cases hm
  | cons x xs ih =>
      obtain ⟨hx_nin, hnd'⟩ := List.nodup_cons.mp hnd
      rcases List.mem_cons.mp hm with rfl | hmem
      · rw [List.filter_cons_of_neg]
        · rw [List.filter_eq_self.mpr]
          · simp
          · intro d hd
            refine ht d (List.mem_cons_of_mem m hd) ?_
            intro he
            rw [he] at hd
            exact hx_nin hd
        · simp [hf]
      · have hx : x ≠ m := fun he => hx_nin (he ▸ hmem)
        rw [List.filter_cons_of_pos]
        · rw [List.length_cons,
              ih hnd' hmem (fun d hd hne => ht d (List.mem_cons_of_mem x hd) hne)]
          have hpos : 0 < xs.length := List.length_pos.mpr (List.ne_nil_of_mem hmem)
          simp only [List.length_cons]
          omega
        · simp [ht x (List.mem_cons_self x xs) hx]

/-- Fresh portfolios from simInit carry no dated records at all. -/
theorem simInit_agents_norecords (personas : List SimPersona) (cap : ℚ) (dsm : String) :
    ∀ a ∈ (simInit personas cap).agents, NoRecordsDated dsm a.portfolio := by
  intro a ha
  simp only [simInit] at ha
  obtain ⟨p, hp, rfl⟩ := List.mem_map.mp ha
  exact ⟨by simp [Portfolio.init], by simp [Portfolio.init]⟩

/-- The concrete date rendering is injective. -/
theorem wDateStr_injective : Function.Injective wDateStr := by
  intro a b h
  have hl := congrArg (fun s => s.data.length) h
  simpa [wDateStr] using hl

/-- C6.  On a date range whose price data is present everywhere except at
one middle date, both simulation loops (_run_simulation_sync and the
AI-mode _run_simulation) complete without error, skip the gap — no
DailyResult for it, no trade record and no snapshot dated with it in any
portfolio — and produce exactly total_days − 1 DailyResult entries.
Parsing is assumed never to raise on the personas' response strings (the
repository's personas emit well-formed JSON), and distinct dates are
assumed to render distinctly (true of strftime). -/
theorem simulation_skips_missing_middle_date
    (env : SimEnv) (personas : List SimPersona) (cap : ℚ) (startD endD m : ℕ)
    (hparse : ∀ s, ∃ dec, parse_decision s (env.loads s) = Except.ok dec)
    (hinj : Function.Injective env.dateStr)
    (hm1 : startD < m) (hm2 : m < endD)
    (hmiss : env.priceData m = none)
    (hhave : ∀ d ∈ dateRange startD endD, d ≠ m → (env.priceData d).isSome) :
    ∃ stS stA : SimState,
      run_simulation_sync env startD endD (simInit personas cap) = .ok stS ∧
      run_simulation env startD endD (simInit personas cap) = .ok stA ∧
      stS.daily_results.length = (endD + 1 - startD) - 1 ∧
      stA.daily_results.length = (endD + 1 - startD) - 1 ∧
      (∀ r ∈ stS.daily_results, r.date ≠ m) ∧
      (∀ r ∈ stA.daily_results, r.date ≠ m) ∧
      (∀ a ∈ stS.agents, NoRecordsDated (env.dateStr m) a.portfolio) ∧
      (∀ a ∈ stA.agents, NoRecordsDated (env.dateStr m) a.portfolio) := by
  obtain ⟨stS, hrunS, hmapS, hpersS, hpresS⟩ :=
    runSimDaysSync_spec env hparse (dateRange startD endD) (simInit personas cap)
  obtain ⟨stA, hrunA, hmapA, hpersA, hpresA⟩ :=
    runSimDaysAI_spec env hparse (dateRange startD endD) (simInit personas cap)
  have hmem : m ∈ dateRange startD endD := by
    simp only [dateRange, List.mem_range'_1]
    omega
  have hnd : (dateRange startD endD).Nodup :=
    List.nodup_range' startD (endD + 1 - startD) 1 Nat.one_pos
  have hflen : ((dateRange startD endD).filter
      (fun d => (env.priceData d).isSome)).length = (dateRange startD endD).length - 1 :=
    filter_length_single_gap _ _ m hnd hmem (by simp [hmiss])
      (fun d hd hne => hhave d hd hne)
  have hrlen : (dateRange startD endD).length = endD + 1 - startD := by
    simp [dateRange]
  have hinit : (simInit personas cap).daily_results.map
      (fun r => r.date) = ([] : List ℕ) := rfl
  rw [hinit, List.nil_append] at hmapS hmapA
  have hlenS : stS.daily_results.length = (endD + 1 - startD) - 1 := by
    have h := congrArg List.length hmapS
    rw [List.length_map, hflen, hrlen] at h
    exact h
  have hlenA : stA.daily_results.length = (endD + 1 - startD) - 1 := by
    have h := congrArg List.length hmapA
    rw [List.length_map, hflen, hrlen] at h
    exact h
  have hdS : ∀ r ∈ stS.daily_results, r.date ≠ m := by
    intro r hr he
    have hmm : r.date ∈ stS.daily_results.map (fun r => r.date) :=
      List.mem_map_of_mem _ hr
    rw [hmapS] at hmm
    have hpt := List.of_mem_filter hmm
    rw [he, hmiss] at hpt
    simp at hpt
  have hdA : ∀ r ∈ stA.daily_results, r.date ≠ m := by
    intro r hr he
    have hmm : r.date ∈ stA.daily_results.map (fun r => r.date) :=
      List.mem_map_of_mem _ hr
    rw [hmapA] at hmm
    have hpt := List.of_mem_filter hmm
    rw [he, hmiss] at hpt
    simp at hpt
  have hgap : ∀ d ∈ dateRange startD endD, (env.priceData d).isSome →
      env.dateStr d ≠ env.dateStr m := by
    intro d hd hs hc
    have hdm : d = m := hinj hc
    rw [hdm, hmiss] at hs
    simp at hs
  exact ⟨stS, stA, hrunS, hrunA, hlenS, hlenA, hdS, hdA,
    hpresS (env.dateStr m) hgap (simInit_agents_norecords personas cap _),
    hpresA (env.dateStr m) hgap (simInit_agents_norecords personas cap _)⟩

/-- C6 witness: the three-day environment with day 1 missing and one
persona — both loops succeed, produce 2 = 3 − 1 results, none dated 1,
and no portfolio record dated with day 1's date string. -/
theorem simulation_skips_missing_middle_date_witness :
    wEnv.priceData 1 = none ∧
    ∃ stS stA : SimState,
      run_simulation_sync wEnv 0 2 (simInit [wPersona] 1000) = .ok stS ∧
      run_simulation wEnv 0 2 (simInit [wPersona] 1000) = .ok stA ∧
      stS.daily_results.length = (2 + 1 - 0) - 1 ∧
      stA.daily_results.length = (2 + 1 - 0) - 1 ∧
      (∀ r ∈ stS.daily_results, r.date ≠ 1) ∧
      (∀ r ∈ stA.daily_results, r.date ≠ 1) ∧
      (∀ a ∈ stS.agents, NoRecordsDated (wEnv.dateStr 1) a.portfolio) ∧
      (∀ a ∈ stA.agents, NoRecordsDated (wEnv.dateStr 1) a.portfolio) :=
  ⟨rfl,
   simulation_skips_missing_middle_date wEnv [wPersona] 1000 0 2 1
     (fun s => ⟨inferFallback s, rfl⟩)
     wDateStr_injective
     (by norm_num) (by norm_num)
     rfl
     (by decide)⟩

/-- C7.  If the AI backend times out on every call, then (a) each
_get_decision_from_main_agent call returns the persona's rule-based
decision string — the failure is not propagated — incrementing
rule_decisions and timeout_fallbacks while leaving ai_decisions and
error_fallbacks alone, and (b) the whole AI-mode run still succeeds with
ai_decisions = 0, rule_decisions = timeout_fallbacks = one per persona
per priced day, and a DailyResult for every in-range date that has price
data. -/
theorem ai_timeouts_degrade_to_rule_decisions
    (env : SimEnv) (personas : List SimPersona) (cap : ℚ) (startD endD : ℕ)
    (hparse : ∀ s, ∃ dec, parse_decision s (env.loads s) = Except.ok dec)
    (htimeout : ∀ p ∈ personas, ∀ ctx, p.ai ctx = AgentOutcome.timeout) :
    (∀ (p : SimPersona) (ctx : MarketContext) (stats : Stats),
       p.ai ctx = AgentOutcome.timeout →
       get_decision_from_main_agent p ctx stats =
         (p.decide_rule ctx,
          { ai_decisions := stats.ai_decisions
            rule_decisions := stats.rule_decisions + 1
            timeout_fallbacks := stats.timeout_fallbacks + 1
            error_fallbacks := stats.error_fallbacks })) ∧
    ∃ st' : SimState,
      run_simulation env startD endD (simInit personas cap) = .ok st' ∧
      st'.stats.ai_decisions = 0 ∧
      st'.stats.rule_decisions =
        ((dateRange startD endD).filter (fun d => (env.priceData d).isSome)).length *
          personas.length ∧
      st'.stats.timeout_fallbacks = st'.stats.rule_decisions ∧
      st'.daily_results.map (fun r => r.date) =
        (dateRange startD endD).filter (fun d => (env.priceData d).isSome) ∧
      (∀ d ∈ dateRange startD endD, (env.priceData d).isSome →
        ∃ r ∈ st'.daily_results, r.date = d) := by
  refine ⟨fun p ctx stats h => get_decision_timeout p ctx stats h, ?_⟩
  have htoinit : ∀ a ∈ (simInit personas cap).agents, ∀ ctx,
      a.persona.ai ctx = AgentOutcome.timeout := by
    intro a ha ctx
    simp only [simInit] at ha
    obtain ⟨p, hp, rfl⟩ := List.mem_map.mp ha
    exact htimeout p hp ctx
  obtain ⟨st', hrun, h1, h2, h3, h4, h5⟩ :=
    runSimDaysAI_timeout env hparse (dateRange startD endD) (simInit personas cap) htoinit
  obtain ⟨st2, hrun2, hmap2, hpers2, hpres2⟩ :=
    runSimDaysAI_spec env hparse (dateRange startD endD) (simInit personas cap)
  have heqok : (Except.ok st' : Except PyExc SimState) = Except.ok st2 :=
    hrun.symm.trans hrun2
  have heq : st2 = st' := (Except.ok.inj heqok).symm
  rw [heq] at hmap2
  have hicnt : (simInit personas cap).agents.length = personas.length := by
    simp [simInit]
  have hizero : (simInit personas cap).stats = ({} : Stats) := rfl
  have hai0 : st'.stats.ai_decisions = 0 := by
    rw [h1, hizero]
  have hrule : st'.stats.rule_decisions =
      ((dateRange startD endD).filter (fun d => (env.priceData d).isSome)).length *
        personas.length := by
    rw [h3, hicnt, hizero]
    simp
  have htmo : st'.stats.timeout_fallbacks = st'.stats.rule_decisions := by
    rw [h4, hrule, hicnt, hizero]
    simp
  have hinit : (simInit personas cap).daily_results.map
      (fun r => r.date) = ([] : List ℕ) := rfl
  rw [hinit, List.nil_append] at hmap2
  refine ⟨st', hrun, hai0, hrule, htmo, hmap2, ?_⟩
  intro d hd hs
  have hdf : d ∈ (dateRange startD endD).filter (fun d => (env.priceData d).isSome) :=
    List.mem_filter.mpr ⟨hd, hs⟩
  rw [← hmap2] at hdf
  obtain ⟨r, hr, hre⟩ := List.mem_map.mp hdf
  exact ⟨r, hr, hre⟩

/-- C7 witness: the always-timeout persona over the three-day range with
one missing date — two priced days, so rule_decisions =
timeout_fallbacks = 2·1 while ai_decisions stays 0, with a result for
both priced days. -/
theorem ai_timeouts_degrade_witness :
    (∀ ctx : MarketContext, wPersona.ai ctx = AgentOutcome.timeout) ∧
    ∃ st' : SimState,
      run_simulation wEnv 0 2 (simInit [wPersona] 1000) = .ok st' ∧
      st'.stats.ai_decisions = 0 ∧
      st'.stats.rule_decisions =
        ((dateRange 0 2).filter (fun d => (wEnv.priceData d).isSome)).length *
          ([wPersona] : List SimPersona).length ∧
      st'.stats.timeout_fallbacks = st'.stats.rule_decisions ∧
      st'.daily_results.map (fun r => r.date) =
        (dateRange 0 2).filter (fun d => (wEnv.priceData d).isSome) ∧
      (∀ d ∈ dateRange 0 2, (wEnv.priceData d).isSome →
        ∃ r ∈ st'.daily_results, r.date = d) :=
  ⟨fun _ => rfl,
   (ai_timeouts_degrade_to_rule_decisions wEnv [wPersona] 1000 0 2
      (fun s => ⟨inferFallback s, rfl⟩)
      (by intro p hp ctx
          rw [List.mem_singleton.mp hp]
          rfl)).2⟩

end Chronos
